import Mathlib

/-!
# Bandcamp collection sync: the status dashboard (`src/Web/ui/app.js`)

A shallow embedding of the dashboard script and of the part of the browser it talks to.

* JavaScript values are the values `Response.json()` can produce, plus `undefined`.
  A number is the decimal the body writes.  An object is the list of its members as the body
  lists them; `Object.entries` enumerates it as the engine does: of members with one name
  the last value stands at the place of the first, names that are array indices come first
  in ascending order, the other names follow in the order of the body.
* Strings are sequences of Unicode characters.  Where the engine counts UTF-16 code units
  (`Object.entries` of a string) a character beyond the Basic Multilingual Plane gives two
  entries, whose values, lone surrogates, are the engine's.
* What the engine computes and the script cannot see into (number and date formatting,
  floating-point products) is a parameter, `Engine`.
* The document is a store of elements addressed by `id`.  The elements the script looks up
  are distinct nodes, none nested in another, so a write to one leaves the others alone.
  Markup assigned through `innerHTML` is kept as the assigned string; what it shows is read
  off by `markupText`, the characters outside tags.
* A function of the script that can throw returns a `Completion`: the state it leaves
  behind, and the exception if it ended abruptly.  The state is kept on both paths, since a
  `catch` does not undo the writes made before the exception.
* One run of `fetchStatus` is modelled on its own; the outcome of each of its four fetches
  and the clock reading are inputs of the run (`Cycle`).
-/

namespace BandcampDashboard

/-! ## JavaScript values -/

/-- A number as a JSON body writes it: the decimal `mantissa / 10 ^ scale`. -/
structure Decimal where
  mantissa : Int
  scale : Nat
  deriving DecidableEq

/-- The values of the embedding.  An object is the list of its members as the body lists
them. -/
inductive JSVal where
  | undefined
  | null
  | bool (b : Bool)
  | num (x : Decimal)
  | str (s : String)
  | arr (items : List JSVal)
  | obj (members : List (String × JSVal))

/-- The exceptions of the embedding. -/
inductive JSError where
  | typeError
  | syntaxError
  deriving DecidableEq

/-- A text without the characters that start markup or a character reference. -/
def plainText (s : String) : Bool :=
  s.data.all fun c => c != '<' && c != '&'

/-- Engine services the script relies on and cannot see into.
* `numberToString`: `Number::toString`.
* `dateToLocaleString`: `toLocaleString()` of a date with the given time value in
  milliseconds, `none` for the invalid date; its text holds no markup.
* `fractionTime`: the time value of `new Date(x * 1000)` for a number `x` that is not whole,
  where the product is a floating-point one.
* `dateOfNonNumber`: `new Date(v * 1000).toLocaleString()` for a `v` that is not a number.
* `surrogate`: the one-unit strings `Object.entries` yields for the two UTF-16 halves of a
  character beyond the Basic Multilingual Plane (`true` for the high half). -/
structure Engine where
  numberToString : Decimal → String
  dateToLocaleString : Option Int → String
  date_plain : ∀ t, plainText (dateToLocaleString t) = true
  fractionTime : Decimal → Option Int
  dateOfNonNumber : JSVal → Except JSError String
  surrogate : Char → Bool → JSVal

/-- The whole number a decimal denotes, if it denotes one. -/
def Decimal.whole (x : Decimal) : Option Int :=
  if x.mantissa % (10 ^ x.scale : Nat) = 0 then some (x.mantissa / (10 ^ x.scale : Nat))
  else none

/-- The number value of the decimal is zero: the decimal is at most half the least positive
double, `2 ^ (-1075)`. -/
def Decimal.isZero (x : Decimal) : Bool :=
  decide (x.mantissa.natAbs * 2 ^ 1075 ≤ 10 ^ x.scale)

/-- The time value of `new Date(x * 1000)`: for a whole `x` the product is exact up to the
range of dates, 8.64e15 ms either side of the epoch, and the date is invalid beyond it. -/
def timeValue (E : Engine) (x : Decimal) : Option Int :=
  match x.whole with
  | some n => if n.natAbs * 1000 ≤ 8640000000000000 then some (n * 1000) else none
  | none => E.fractionTime x

/-- Strict equality `v === s` with a string literal `s`. -/
def strictEqStr : JSVal → String → Bool
  | .str t, s => t == s
  | _, _ => false

/-- Truthiness, as tested by `!v` and `if (v)`. -/
def truthy : JSVal → Bool
  | .undefined => false
  | .null => false
  | .bool b => b
  | .num x => !x.isZero
  | .str s => s != ""
  | .arr _ => true
  | .obj _ => true

/-- The value of the property `k` of an object: of members with the same name the last one
stands. -/
def propValue (k : String) : List (String × JSVal) → Option JSVal
  | [] => none
  | m :: rest =>
    match propValue k rest with
    | some v => some v
    | none => if m.1 = k then some m.2 else none

/-- The property names of an object in creation order: each name where the body lists it
first. -/
def propNames : List (String × JSVal) → List String
  | [] => []
  | m :: rest => m.1 :: (propNames rest).filter fun k => k != m.1

/-- The value of a string of decimal digits, `none` if another character occurs. -/
def digitsValue : List Char → Nat → Option Nat
  | [], acc => some acc
  | c :: cs, acc =>
    if c.isDigit then digitsValue cs (acc * 10 + (c.toNat - 48)) else none

/-- The array index a property name denotes, if any: the canonical decimal of a whole number
below `2 ^ 32 - 1`. -/
def arrayIndex (k : String) : Option Nat :=
  match k.data with
  | [] => none
  | [c] => if c.isDigit then some (c.toNat - 48) else none
  | c :: cs =>
    if c = '0' then none
    else
      match digitsValue (c :: cs) 0 with
      | some n => if n < 4294967295 then some n else none
      | none => none

/-- The own property names in the order of enumeration: array indices first, ascending, then
the other names in creation order. -/
def ownKeys (members : List (String × JSVal)) : List String :=
  let names := propNames members
  ((names.filterMap fun k => (arrayIndex k).map fun n => (n, k)).insertionSort
      (fun a b => a.1 ≤ b.1)).map Prod.snd ++
    names.filter fun k => (arrayIndex k).isNone

/-- The own properties of an object in the order of enumeration. -/
def ownEntries (members : List (String × JSVal)) : List (String × JSVal) :=
  (ownKeys members).map fun k => (k, (propValue k members).getD .undefined)

/-- Property read `v.k` for the property names the script uses (none of them is defined on
a prototype of a parsed value, nor is an array index or `length`). -/
def getProp : JSVal → String → Except JSError JSVal
  | .undefined, _ => .error .typeError
  | .null, _ => .error .typeError
  | .obj members, k => .ok ((propValue k members).getD .undefined)
  | _, _ => .ok .undefined

/-- The entries of an array: index strings paired with the items. -/
def indexEntries : Nat → List JSVal → List (String × JSVal)
  | _, [] => []
  | i, x :: xs => (toString i, x) :: indexEntries (i + 1) xs

/-- The UTF-16 code units of a string, each as a string of one unit. -/
def codeUnits (E : Engine) (s : String) : List JSVal :=
  s.data.flatMap fun c =>
    if c.toNat < 65536 then [JSVal.str (String.singleton c)]
    else [E.surrogate c true, E.surrogate c false]

/-- `Object.entries(v)`. -/
def Object_entries (E : Engine) : JSVal → Except JSError (List (String × JSVal))
  | .undefined => .error .typeError
  | .null => .error .typeError
  | .obj members => .ok (ownEntries members)
  | .arr items => .ok (indexEntries 0 items)
  | .str s => .ok (indexEntries 0 (codeUnits E s))
  | _ => .ok []

/-- The items `v.forEach(...)` visits: only an array has a callable `forEach`. -/
def forEachItems : JSVal → Except JSError (List JSVal)
  | .arr items => .ok items
  | _ => .error .typeError

/-- One item of a joined array, given its `ToString`: `undefined` and `null` give the empty
string. -/
def itemString (x : JSVal) (s : Except JSError String) : Except JSError String :=
  match x with
  | .undefined => .ok ""
  | .null => .ok ""
  | _ => s

mutual
/-- The abstract operation `ToString`, used by template literals. -/
def ToString (E : Engine) : JSVal → Except JSError String
  | .undefined => .ok "undefined"
  | .null => .ok "null"
  | .bool true => .ok "true"
  | .bool false => .ok "false"
  | .num x => .ok (E.numberToString x)
  | .str s => .ok s
  | .arr items => joinItems E items
  | .obj members =>
    if (propValue "toString" members).isSome then .error .typeError
    else .ok "[object Object]"
termination_by structural v => v
/-- `Array.prototype.join` with the default separator, on the items of an array. -/
def joinItems (E : Engine) : List JSVal → Except JSError String
  | [] => .ok ""
  | [x] => itemString x (ToString E x)
  | x :: y :: rest =>
    match itemString x (ToString E x) with
    | .error e => .error e
    | .ok a =>
      match joinItems E (y :: rest) with
      | .error e => .error e
      | .ok b => .ok (a ++ "," ++ b)
termination_by structural items => items
end

/-- Conversion to the nullable `DOMString` of `textContent`. -/
def domString (E : Engine) : JSVal → Except JSError String
  | .undefined => .ok ""
  | .null => .ok ""
  | v => ToString E v

/-- `new Date(v * 1000).toLocaleString()`. -/
def dateString (E : Engine) : JSVal → Except JSError String
  | .num x => .ok (E.dateToLocaleString (timeValue E x))
  | v => E.dateOfNonNumber v

/-! ## Strings -/

/-- `String.prototype.replace` with a string pattern, on code points: the first occurrence
of `pat` is replaced by `rep` (a replacement without `$`). -/
def replaceFirst (pat rep : List Char) : List Char → List Char
  | [] => if pat = [] then rep else []
  | c :: cs =>
    if pat.isPrefixOf (c :: cs) then rep ++ (c :: cs).drop pat.length
    else c :: replaceFirst pat rep cs

/-- `s.replace(pat, rep)`. -/
def String_replace (s pat rep : String) : String :=
  ⟨replaceFirst pat.data rep.data s.data⟩

/-- `Array.prototype.join(sep)` on an array of strings. -/
def Array_join (sep : String) : List String → String
  | [] => ""
  | [x] => x
  | x :: y :: rest => x ++ sep ++ Array_join sep (y :: rest)

/-! ## The document -/

/-- A child node of a container. -/
inductive Node where
  | text (data : String)
  | markup (html : String)
  | element (tag className innerHTML : String)
  deriving DecidableEq

/-- An element the script looks up: its child nodes and the two style properties written. -/
structure Element where
  childNodes : List Node
  color : String
  display : String
  deriving DecidableEq

/-- The document: `getElementById`. -/
abbrev Document := String → Option Element

/-- The document with the element `id` replaced. -/
def Document.put (d : Document) (id : String) (el : Element) : Document :=
  fun k => if k = id then some el else d k

/-- How a call ends: normally, or with an exception; either way it leaves a state. -/
inductive Completion (σ : Type) where
  | normal (s : σ)
  | abrupt (e : JSError) (s : σ)

/-- The state a call leaves behind. -/
def Completion.state {σ : Type} : Completion σ → σ
  | .normal s => s
  | .abrupt _ s => s

/-- Sequencing: the next statement runs only after a normal completion. -/
def Completion.andThen {σ : Type} (c : Completion σ) (f : σ → Completion σ) : Completion σ :=
  match c with
  | .normal s => f s
  | .abrupt e s => .abrupt e s

/-- The exception a call ended with, if any. -/
def Completion.error {σ : Type} : Completion σ → Option JSError
  | .normal _ => none
  | .abrupt e _ => some e

/-- The completion with the given exception, if any, and the given state. -/
def complete {σ : Type} (k : Option JSError) (s : σ) : Completion σ :=
  match k with
  | none => .normal s
  | some e => .abrupt e s

/-- The child nodes after `el.textContent = s`. -/
def textNodes (s : String) : List Node :=
  if s = "" then [] else [.text s]

/-- The child nodes after `el.innerHTML = html`. -/
def fragment (html : String) : List Node :=
  if html = "" then [] else [.markup html]

/-- The statement `el.textContent = s` with `el = getElementById(id)`. -/
def setTextContent (id s : String) (d : Document) : Completion Document :=
  match d id with
  | none => .abrupt .typeError d
  | some el => .normal (d.put id { el with childNodes := textNodes s })

/-- The statement `el.innerHTML = html` with `el = getElementById(id)`. -/
def setInnerHTML (id html : String) (d : Document) : Completion Document :=
  match d id with
  | none => .abrupt .typeError d
  | some el => .normal (d.put id { el with childNodes := fragment html })

/-- The statement `el.style.color = c`. -/
def setColor (id c : String) (d : Document) : Completion Document :=
  match d id with
  | none => .abrupt .typeError d
  | some el => .normal (d.put id { el with color := c })

/-- The statement `if (el) el.style.display = v`. -/
def setDisplayIfPresent (id v : String) (d : Document) : Document :=
  match d id with
  | none => d
  | some el => d.put id { el with display := v }

/-- The statement `el.appendChild(row)`. -/
def appendChild (id : String) (row : Node) (d : Document) : Completion Document :=
  match d id with
  | none => .abrupt .typeError d
  | some el => .normal (d.put id { el with childNodes := el.childNodes ++ [row] })

/-- A loop that builds one row per item and appends it to the container `id`. -/
def appendRows {α : Type} (id : String) (mk : α → Except JSError Node) :
    List α → Document → Completion Document
  | [], d => .normal d
  | x :: xs, d =>
    match mk x with
    | .error e => .abrupt e d
    | .ok row => (appendChild id row d).andThen (appendRows id mk xs)

/-! ## The renderers -/

/-- The function `updateHeader`; `now` is `new Date().toLocaleTimeString()`. -/
def updateHeader (now : String) (alive : Bool) (d : Document) : Completion Document :=
  if alive then
    (setTextContent "header-status" ("STATUS: ONLINE - " ++ now) d).andThen
      (setColor "header-status" "black")
  else
    (setTextContent "header-status" "STATUS: OFFLINE" d).andThen
      (setColor "header-status" "red")

/-- One statement of `updateQueue`: `getElementById(id).textContent = counts.key`. -/
def setCount (E : Engine) (id key : String) (counts : JSVal) (d : Document) :
    Completion Document :=
  match getProp counts key with
  | .error e => .abrupt e d
  | .ok v =>
    match domString E v with
    | .error e => .abrupt e d
    | .ok s => setTextContent id s d

/-- The function `updateQueue`. -/
def updateQueue (E : Engine) (counts : JSVal) (d : Document) : Completion Document :=
  (((setCount E "count-pending" "pending" counts d).andThen
    (setCount E "count-in-progress" "in_progress" counts)).andThen
    (setCount E "count-failed" "failed" counts)).andThen
    (setCount E "count-done" "done" counts)

/-- The status-dot class `updateSystemd` computes for a unit status. -/
def unitColorClass (status : JSVal) : String :=
  let colorClass := "inactive"
  let colorClass := if strictEqStr status "active" then "active" else colorClass
  let colorClass := if strictEqStr status "failed" then "failed" else colorClass
  colorClass

/-- The display name `updateSystemd` derives from a unit identifier. -/
def shortName (unit : String) : String :=
  String_replace
    (String_replace (String_replace unit "bandcamp-sync-" "") ".service" "")
    ".path" " (path)"

/-- The template literal assigned to `row.innerHTML` in `updateSystemd`. -/
def unitRowHTML (name colorClass status : String) : String :=
  "\n            <span>" ++ name ++ "</span>\n            <div style=\"display:flex; align-items:center;\">\n                <span class=\"dot " ++ colorClass ++ "\"></span>\n                <small>" ++ status ++ "</small>\n            </div>\n        "

/-- The row `updateSystemd` builds for one entry. -/
def unitRow (E : Engine) (entry : String × JSVal) : Except JSError Node :=
  match ToString E entry.2 with
  | .error e => .error e
  | .ok status =>
    .ok (.element "div" "systemd-item"
      (unitRowHTML (shortName entry.1) (unitColorClass entry.2) status))

/-- The function `updateSystemd`. -/
def updateSystemd (E : Engine) (units : JSVal) (d : Document) : Completion Document :=
  (setInnerHTML "systemd-stats" "" d).andThen fun d1 =>
    match Object_entries E units with
    | .error e => .abrupt e d1
    | .ok entries => appendRows "systemd-stats" (unitRow E) entries d1

/-- The markup `updateCurrentJob` writes when there is no job. -/
def idleHTML : String := "<p>IDLE. SENSORS DETECT NO ACTIVE JOBS.</p>"

/-- The template literal `updateCurrentJob` writes for a job. -/
def jobHTML (filename content modified : String) : String :=
  "\n        <div style=\"margin-bottom:10px;\"><strong>FILE:</strong> " ++ filename ++ "</div>\n        <div style=\"margin-bottom:10px;\"><strong>CONTENT:</strong> " ++ content ++ "</div>\n        <div><strong>MODIFIED:</strong> " ++ modified ++ "</div>\n    "

/-- The evaluation of the template literal of `updateCurrentJob`. -/
def jobMarkup (E : Engine) (job : JSVal) : Except JSError String :=
  match getProp job "filename" with
  | .error e => .error e
  | .ok fv =>
    match ToString E fv with
    | .error e => .error e
    | .ok filename =>
      match getProp job "content" with
      | .error e => .error e
      | .ok cv =>
        match ToString E cv with
        | .error e => .error e
        | .ok content =>
          match getProp job "mtime" with
          | .error e => .error e
          | .ok mv =>
            match dateString E mv with
            | .error e => .error e
            | .ok modified => .ok (jobHTML filename content modified)

/-- The function `updateCurrentJob`. -/
def updateCurrentJob (E : Engine) (job : JSVal) (d : Document) : Completion Document :=
  if !truthy job then
    setInnerHTML "job-details" idleHTML d
  else
    match jobMarkup E job with
    | .error e => .abrupt e d
    | .ok html => setInnerHTML "job-details" html d

/-- The inner loop of `updateLogs`: `lines.forEach(line => allLines.push(...))`. -/
def pushLines (E : Engine) (filename : String) :
    List JSVal → List String → Except JSError (List String)
  | [], allLines => .ok allLines
  | line :: rest, allLines =>
    match ToString E line with
    | .error e => .error e
    | .ok s => pushLines E filename rest (allLines ++ ["[" ++ filename ++ "] " ++ s])

/-- The outer loop of `updateLogs` over `Object.entries(logs)`. -/
def collectLines (E : Engine) :
    List (String × JSVal) → List String → Except JSError (List String)
  | [], allLines => .ok allLines
  | (filename, lines) :: rest, allLines =>
    match forEachItems lines with
    | .error e => .error e
    | .ok items =>
      match pushLines E filename items allLines with
      | .error e => .error e
      | .ok allLines1 => collectLines E rest allLines1

/-- The function `updateLogs`. -/
def updateLogs (E : Engine) (logs : JSVal) (d : Document) : Completion Document :=
  match Object_entries E logs with
  | .error e => .abrupt e d
  | .ok entries =>
    match collectLines E entries [] with
    | .error e => .abrupt e d
    | .ok allLines =>
      let text := Array_join "\n" allLines
      (setTextContent "mini-logs" text d).andThen (setTextContent "full-logs" text)

/-- One entry of the `targets` array of `updateCollection`. -/
structure Target where
  body : String
  warning : String
  deriving DecidableEq

/-- The `targets` array of `updateCollection`. -/
def targets : List Target :=
  [ { body := "collection-list-body", warning := "collection-warning" },
    { body := "collection-list-body-dashboard", warning := "collection-warning-dashboard" } ]

/-- The markup `updateCollection` writes when the collection file is missing. -/
def noDataHTML : String := "<tr><td colspan=\"3\">No collection data available.</td></tr>"

/-- The text class `updateCollection` computes for an item status. -/
def itemColorClass (status : JSVal) : String :=
  let colorClass := "lcars-text-gray"
  let colorClass := if strictEqStr status "DOWNLOADED" then "lcars-text-orange" else colorClass
  let colorClass := if strictEqStr status "PENDING" then "lcars-text-yellow" else colorClass
  let colorClass := if strictEqStr status "FAILED" then "lcars-text-red" else colorClass
  let colorClass := if strictEqStr status "IN_PROGRESS" then "lcars-text-blue" else colorClass
  colorClass

/-- The template literal assigned to `row.innerHTML` in `updateCollection`. -/
def itemRowHTML (colorClass status artist title : String) : String :=
  "\n                <td class=\"" ++ colorClass ++ "\">" ++ status ++ "</td>\n                <td>" ++ artist ++ "</td>\n                <td>" ++ title ++ "</td>\n            "

/-- The row `updateCollection` builds for one item. -/
def itemRow (E : Engine) (item : JSVal) : Except JSError Node :=
  match getProp item "status" with
  | .error e => .error e
  | .ok sv =>
    match ToString E sv with
    | .error e => .error e
    | .ok status =>
      match getProp item "artist" with
      | .error e => .error e
      | .ok av =>
        match ToString E av with
        | .error e => .error e
        | .ok artist =>
          match getProp item "title" with
          | .error e => .error e
          | .ok tv =>
            match ToString E tv with
            | .error e => .error e
            | .ok title =>
              .ok (.element "tr" "" (itemRowHTML (itemColorClass sv) status artist title))

/-- The callback `updateCollection` runs for one target. -/
def updateTarget (E : Engine) (data : JSVal) (target : Target) (d : Document) :
    Completion Document :=
  match d target.body with
  | none => .normal d
  | some _ =>
    match getProp data "status" with
    | .error e => .abrupt e d
    | .ok status =>
      if strictEqStr status "missing_file" then
        setInnerHTML target.body noDataHTML (setDisplayIfPresent target.warning "block" d)
      else
        (setInnerHTML target.body "" (setDisplayIfPresent target.warning "none" d)).andThen
          fun d1 =>
            match getProp data "items" with
            | .error e => .abrupt e d1
            | .ok iv =>
              match forEachItems iv with
              | .error e => .abrupt e d1
              | .ok items => appendRows target.body (itemRow E) items d1

/-- The loop `targets.forEach(...)`. -/
def forEachTarget (E : Engine) (data : JSVal) : List Target → Document → Completion Document
  | [], d => .normal d
  | t :: ts, d => (updateTarget E data t d).andThen (forEachTarget E data ts)

/-- The function `updateCollection`. -/
def updateCollection (E : Engine) (data : JSVal) (d : Document) : Completion Document :=
  forEachTarget E data targets d

/-! ## The poll cycle -/

/-- What a `fetch` followed by `.json()` gives: the request is rejected, the body is not
JSON, or the parsed body. -/
inductive FetchOutcome where
  | rejected
  | unparseable
  | body (v : JSVal)

/-- What the network and the clock give one cycle. -/
structure Cycle where
  status : FetchOutcome
  queue : FetchOutcome
  logs : FetchOutcome
  collection : FetchOutcome
  now : String

/-- The page: the document, the requests issued so far, and what `console.error` logged. -/
structure Page where
  document : Document
  requests : List String
  console : List JSError

/-- Whether the promise returned by `fetch` rejects. -/
def FetchOutcome.isRejected : FetchOutcome → Bool
  | .rejected => true
  | _ => false

/-- The expression `await res.json()` on a response that arrived. -/
def FetchOutcome.json : FetchOutcome → Except JSError JSVal
  | .body v => .ok v
  | _ => .error .syntaxError

/-- The call `fetch(url)`: the request is issued. -/
def request (url : String) (p : Page) : Page :=
  { p with requests := p.requests ++ [url] }

/-- A statement on the document, run on the page. -/
def onDocument (op : Document → Completion Document) (p : Page) : Completion Page :=
  match op p.document with
  | .normal d => .normal { p with document := d }
  | .abrupt e d => .abrupt e { p with document := d }

/-- A renderer call `f(arg)`: the argument is evaluated, then the renderer runs on the
document. -/
def call (arg : Except JSError JSVal) (f : JSVal → Document → Completion Document)
    (p : Page) : Completion Page :=
  match arg with
  | .error e => .abrupt e p
  | .ok v => onDocument (f v) p

/-- The renderer calls of the `try` block, from `updateHeader(true)` to `updateLogs`. -/
def renderTriad (E : Engine) (now : String) (statusData queueData logsData : JSVal)
    (p : Page) : Completion Page :=
  ((((((onDocument (updateHeader now true) p).andThen
    (call (getProp statusData "systemd") (updateSystemd E))).andThen
    (call (getProp queueData "counts") (updateQueue E))).andThen
    (call (getProp queueData "current_job") (updateCurrentJob E))).andThen
    (call (getProp queueData "counts") (updateQueue E))).andThen
    (call (getProp queueData "current_job") (updateCurrentJob E))).andThen
    (call (getProp logsData "logs") (updateLogs E))

/-- The collection step of the `try` block. -/
def collectionStep (E : Engine) (c : Cycle) (p : Page) : Completion Page :=
  let p1 := request "/api/collection" p
  if c.collection.isRejected then .abrupt .typeError p1
  else
    match c.collection.json with
    | .error e => .abrupt e p1
    | .ok collectionData => onDocument (updateCollection E collectionData) p1

/-- The `try` block of `fetchStatus`. -/
def tryBlock (E : Engine) (c : Cycle) (p : Page) : Completion Page :=
  let p1 := request "/api/logs" (request "/api/queue" (request "/api/status" p))
  if c.status.isRejected || c.queue.isRejected || c.logs.isRejected then
    .abrupt .typeError p1
  else
    match c.status.json with
    | .error e => .abrupt e p1
    | .ok statusData =>
      match c.queue.json with
      | .error e => .abrupt e p1
      | .ok queueData =>
        match c.logs.json with
        | .error e => .abrupt e p1
        | .ok logsData =>
          (renderTriad E c.now statusData queueData logsData p1).andThen (collectionStep E c)

/-- The `catch` block of `fetchStatus`. -/
def catchBlock (c : Cycle) (e : JSError) (p : Page) : Completion Page :=
  onDocument (updateHeader c.now false) { p with console := p.console ++ [e] }

/-- The function `fetchStatus`: one poll cycle. -/
def fetchStatus (E : Engine) (c : Cycle) (p : Page) : Completion Page :=
  match tryBlock E c p with
  | .normal p1 => .normal p1
  | .abrupt e p1 => catchBlock c e p1

/-! ## Well-formed responses

The shapes the four endpoints are documented to send, and the values their bodies parse to. -/

/-- The job being processed. -/
structure Job where
  filename : String
  content : String
  mtime : Decimal

/-- The four queue counters. -/
structure Counts where
  pending : Int
  in_progress : Int
  failed : Int
  done : Int

/-- One item of the collection inventory. -/
structure CollectionItem where
  status : String
  artist : String
  title : String

/-- The collection resource. -/
inductive CollectionView where
  | missing_file
  | ok (items : List CollectionItem)

/-- A units mapping as a value. -/
def unitsVal (units : List (String × String)) : JSVal :=
  .obj (units.map fun u => (u.1, JSVal.str u.2))

/-- A logs mapping as a value. -/
def logsVal (logs : List (String × List String)) : JSVal :=
  .obj (logs.map fun l => (l.1, JSVal.arr (l.2.map JSVal.str)))

/-- The counters as a value. -/
def countsVal (c : Counts) : JSVal :=
  .obj [("pending", .num ⟨c.pending, 0⟩), ("in_progress", .num ⟨c.in_progress, 0⟩),
    ("failed", .num ⟨c.failed, 0⟩), ("done", .num ⟨c.done, 0⟩)]

/-- The current job as a value: `null` when idle. -/
def jobVal : Option Job → JSVal
  | none => .null
  | some j => .obj [("filename", .str j.filename), ("content", .str j.content),
      ("mtime", .num j.mtime)]

/-- A collection item as a value. -/
def itemVal (i : CollectionItem) : JSVal :=
  .obj [("status", .str i.status), ("artist", .str i.artist), ("title", .str i.title)]

/-- The collection resource as a value. -/
def collectionVal : CollectionView → JSVal
  | .missing_file => .obj [("status", .str "missing_file")]
  | .ok items => .obj [("status", .str "ok"), ("items", .arr (items.map itemVal))]

/-- The body of `/api/status`. -/
def statusBody (units : List (String × String)) : JSVal :=
  .obj [("systemd", unitsVal units)]

/-- The body of `/api/queue`. -/
def queueBody (c : Counts) (job : Option Job) : JSVal :=
  .obj [("counts", countsVal c), ("current_job", jobVal job)]

/-- The body of `/api/logs`. -/
def logsBody (logs : List (String × List String)) : JSVal :=
  .obj [("logs", logsVal logs)]

/-- The row `updateSystemd` is to show for a unit with a string status. -/
def unitNode (u : String × String) : Node :=
  .element "div" "systemd-item" (unitRowHTML (shortName u.1) (unitColorClass (.str u.2)) u.2)

/-- The row `updateCollection` is to show for an item. -/
def itemNode (i : CollectionItem) : Node :=
  .element "tr" "" (itemRowHTML (itemColorClass (.str i.status)) i.status i.artist i.title)

/-! ## Reasoning about statements on the document -/

/-- A statement: a function of the document that may throw. -/
abbrev Stmt := Document → Completion Document

/-- The statement writes to no element outside `S`. -/
def Frame (S : List String) (op : Stmt) : Prop :=
  ∀ d k, k ∉ S → (op d).state k = d k

/-- What the statement does is determined by the elements in `S`. -/
def Depends (S : List String) (op : Stmt) : Prop :=
  ∀ d d2, (∀ k ∈ S, d k = d2 k) →
    (op d).error = (op d2).error ∧ ∀ k ∈ S, (op d).state k = (op d2).state k

/-- The statement neither creates nor removes an element. -/
def Keeps (op : Stmt) : Prop :=
  ∀ d k, ((op d).state k).isSome = (d k).isSome

/-- Running the statement again on the document it left changes nothing. -/
def Idem (op : Stmt) : Prop :=
  ∀ d, op (op d).state = op d

/-- The statement is local to `S`. -/
def Local (S : List String) (op : Stmt) : Prop :=
  Frame S op ∧ Depends S op ∧ Keeps op

/-- The statement completes normally on every document that has the elements in `S`. -/
def NormalWhen (S : List String) (op : Stmt) : Prop :=
  ∀ d, (∀ k ∈ S, (d k).isSome = true) → (op d).error = none

/-- An overwrite of one element: throws if it is missing, else replaces it by `f el` and
completes with `k`. -/
def overwrite (id : String) (f : Element → Element) (k : Option JSError) : Stmt :=
  fun d =>
    match d id with
    | none => .abrupt .typeError d
    | some el => complete k (d.put id (f el))

/-- Two statements in sequence. -/
def seq (a b : Stmt) : Stmt :=
  fun d => (a d).andThen b

/-- A statement that throws at once. -/
def raise (e : JSError) : Stmt :=
  fun d => .abrupt e d

/-- The empty statement. -/
def skip : Stmt :=
  fun d => .normal d

/-- A statement guarded by `if (!el) return`. -/
def whenPresent (id : String) (op : Stmt) : Stmt :=
  fun d =>
    match d id with
    | none => .normal d
    | some _ => op d

/-- The statement `if (el) el.style.display = v`, as a statement. -/
def displayStmt (id v : String) : Stmt :=
  fun d => .normal (setDisplayIfPresent id v d)

/-- A renderer applied to an argument that may throw while it is evaluated. -/
def argStmt (arg : Except JSError JSVal) (f : JSVal → Stmt) : Stmt :=
  match arg with
  | .error e => raise e
  | .ok v => f v

/-- A statement that either throws at once or overwrites the element `id` with a result
that does not depend on what the element held. -/
def Simple (id : String) (op : Stmt) : Prop :=
  (∃ e, op = raise e) ∨
    ∃ f k, (∀ el : Element, f (f el) = f el) ∧ op = overwrite id f k

/-- The rows a row-building loop appends before it ends. -/
def builtRows {α : Type} (mk : α → Except JSError Node) : List α → List Node
  | [] => []
  | x :: xs =>
    match mk x with
    | .error _ => []
    | .ok row => row :: builtRows mk xs

/-- The exception a row-building loop ends with, if any. -/
def firstError {α : Type} (mk : α → Except JSError Node) : List α → Option JSError
  | [] => none
  | x :: xs =>
    match mk x with
    | .error e => some e
    | .ok _ => firstError mk xs

/-- The renderer calls of the `try` block as one statement on the document. -/
def triadStmt (E : Engine) (now : String) (statusData queueData logsData : JSVal) : Stmt :=
  seq (seq (seq (seq (seq (seq (updateHeader now true)
    (argStmt (getProp statusData "systemd") (updateSystemd E)))
    (argStmt (getProp queueData "counts") (updateQueue E)))
    (argStmt (getProp queueData "current_job") (updateCurrentJob E)))
    (argStmt (getProp queueData "counts") (updateQueue E)))
    (argStmt (getProp queueData "current_job") (updateCurrentJob E)))
    (argStmt (getProp logsData "logs") (updateLogs E))

/-- The ids the renderers of the triad write to, in the order of the calls. -/
def triadIds : List String :=
  ["header-status"] ++ ["systemd-stats"] ++
    ["count-pending", "count-in-progress", "count-failed", "count-done"] ++ ["job-details"] ++
    ["count-pending", "count-in-progress", "count-failed", "count-done"] ++ ["job-details"] ++
    ["mini-logs", "full-logs"]

/-- The `catch` of `fetchStatus` applied to the completion of the `try` block. -/
def handle (c : Cycle) (r : Completion Page) : Completion Page :=
  match r with
  | .normal p1 => .normal p1
  | .abrupt e p1 => catchBlock c e p1

/-! ## What the claims speak of -/

/-- The text the logs panel is to show, in the words of the specification: the strings
`[name] line`, log by log in the mapping's order and line by line, joined by newlines. -/
def flattenLogsSpec (logs : List (String × List String)) : String :=
  "\n".intercalate (logs.flatMap fun l => l.2.map fun line => "[" ++ l.1 ++ "] " ++ line)

/-- The text of a markup string: its characters outside tags. The flag tells whether the
scan is inside a tag. -/
def markupText : Bool → List Char → List Char
  | _, [] => []
  | true, c :: cs => if c = '>' then markupText false cs else markupText true cs
  | false, c :: cs => if c = '<' then markupText true cs else c :: markupText false cs

/-- The document after both collection targets were written: the two banners get the given
`display`, the two table bodies the given rows. -/
def collectionWritten (d : Document) (display : String) (rows : List Node)
    (b1 w1 b2 w2 : Element) : Document :=
  (((d.put "collection-warning" { w1 with display := display }).put
    "collection-list-body" { b1 with childNodes := rows }).put
    "collection-warning-dashboard" { w2 with display := display }).put
    "collection-list-body-dashboard" { b2 with childNodes := rows }

/-- The string `pat` occurs in `s`. -/
def occursIn (pat s : String) : Prop := pat.data <:+: s.data

instance occursInDecidable (pat s : String) : Decidable (occursIn pat s) := by
  unfold occursIn; infer_instance

/-- The fetch did not deliver a parsed body. -/
def FetchOutcome.failed : FetchOutcome → Bool
  | .body _ => false
  | _ => true

/-- The containers the systemd, queue, current-job and logs renderers write to. -/
def renderedIds : List String :=
  ["systemd-stats", "count-pending", "count-in-progress", "count-failed", "count-done",
    "job-details", "mini-logs", "full-logs"]

/-- A cycle in which the status, queue and logs fetches deliver well-formed bodies. -/
def triadCycle (units : List (String × String)) (counts : Counts) (job : Option Job)
    (logs : List (String × List String)) (collection : FetchOutcome) (now : String) : Cycle :=
  { status := .body (statusBody units),
    queue := .body (queueBody counts job),
    logs := .body (logsBody logs),
    collection := collection,
    now := now }

/-- Whether a scan that starts outside a tag (`false`) or inside one (`true`) ends inside a
tag. -/
def inTagAfter : Bool → List Char → Bool
  | b, [] => b
  | true, c :: cs => if c = '>' then inTagAfter false cs else inTagAfter true cs
  | false, c :: cs => if c = '<' then inTagAfter true cs else inTagAfter false cs

/-- Whether `<p` occurs in the characters; the flag tells whether the character before them
is `<`. -/
def opensParagraph : Bool → List Char → Bool
  | _, [] => false
  | b, c :: cs => (b && c == 'p') || opensParagraph (c == '<') cs

/-- Whether the characters, or the one before them when they are none, end in `<`. -/
def endsWithLt : Bool → List Char → Bool
  | b, [] => b
  | _, c :: cs => endsWithLt (c == '<') cs

/-- The text a node shows: the data of a text node, the characters outside tags of markup
(character references are not decoded; none occurs in a text without `&`). -/
def Node.shownText : Node → List Char
  | .text data => data.data
  | .markup html => markupText false html.data
  | .element _ _ innerHTML => markupText false innerHTML.data

/-- The text an element shows. -/
def Element.shownText (el : Element) : String :=
  ⟨el.childNodes.flatMap Node.shownText⟩

/-- The status-dot class the claim describes for a unit status. -/
def dotClassSpec (status : String) : String :=
  if status = "active" then "active" else if status = "failed" then "failed" else "inactive"

/-- The row the claim describes for a unit: the short name, a status dot of the class
`dotClassSpec`, and the status. -/
def unitRowSpec (u : String × String) : Node :=
  .element "div" "systemd-item"
    ("\n            <span>" ++ shortName u.1 ++ "</span>\n            <div style=\"display:flex; align-items:center;\">\n                <span class=\"dot " ++ dotClassSpec u.2 ++ "\"></span>\n                <small>" ++ u.2 ++ "</small>\n            </div>\n        ")

/-! ## Sample inputs -/

/-- A sample engine: whole numbers in decimal, two dates of the `en-US` locale in UTC, and
fractional seconds truncated from the exact product. -/
def engine0 : Engine where
  numberToString := fun x =>
    match x.whole with
    | some n => toString n
    | none => toString x.mantissa ++ "e-" ++ toString x.scale
  dateToLocaleString := fun t =>
    match t with
    | none => "Invalid Date"
    | some ms =>
      if ms = 0 then "1/1/1970, 12:00:00 AM"
      else if ms = 1700000000000 then "11/14/2023, 10:13:20 PM"
      else "another date"
  date_plain := by
    intro t
    cases t with
    | none => decide
    | some ms =>
      show plainText (if ms = 0 then _ else if ms = 1700000000000 then _ else _) = true
      split
      · decide
      · split <;> decide
  fractionTime := fun x => some (Int.tdiv (x.mantissa * 1000) (10 ^ x.scale : Nat))
  dateOfNonNumber := fun _ => .ok "Invalid Date"
  surrogate := fun _ _ => .str "\uFFFD"

/-- An element left over from an earlier render. -/
def stale : Element := { childNodes := [.text "stale"], color := "green", display := "inline" }

/-- A document with every element the script looks up, each holding stale content. -/
def fullDocument : Document := fun id =>
  if id ∈ ["header-status", "systemd-stats", "count-pending", "count-in-progress",
    "count-failed", "count-done", "job-details", "mini-logs", "full-logs",
    "collection-list-body", "collection-warning", "collection-list-body-dashboard",
    "collection-warning-dashboard"] then some stale else none

/-- A document in which the dashboard copy of the collection widget is not loaded. -/
def standaloneDocument : Document := fun id =>
  if id ∈ ["collection-list-body-dashboard", "collection-warning-dashboard"] then none
  else fullDocument id

/-- A page with every element, before any request. -/
def samplePage : Page := { document := fullDocument, requests := [], console := [] }

/-- A sample units mapping. -/
def sampleUnits : List (String × String) :=
  [("bandcamp-sync-reconcile.service", "active"), ("bandcamp-sync-worker.service", "failed"),
    ("bandcamp-sync-watch.path", "activating")]

/-- Sample queue counters. -/
def sampleCounts : Counts := { pending := 3, in_progress := 1, failed := 0, done := 12 }

/-- The logs mapping of the specification's example. -/
def sampleLogs : List (String × List String) := [("a.log", ["x", "y"]), ("b.log", ["z"])]

/-- A sample collection inventory. -/
def sampleItems : List CollectionItem :=
  [⟨"DOWNLOADED", "Artist A", "Album 1"⟩, ⟨"PENDING", "Artist B", "Album 2"⟩]

/-- A logs mapping with two names that are array indices, listed after a name that is not. -/
def indexedLogs : List (String × List String) := [("b.log", ["x"]), ("2", ["y"]), ("1", ["z"])]

/-- A units mapping with two names that are array indices, listed after a name that is
not. -/
def indexedUnits : List (String × String) := [("b", "active"), ("10", "failed"), ("9", "dead")]

/-- A job whose content is markup. -/
def markupJob : Job := { filename := "a.job", content := "<b>x</b>", mtime := ⟨0, 0⟩ }

/-- A job modified at the epoch. -/
def epochJob : Job :=
  { filename := "a.job", content := "https://x.bandcamp.com/album/y", mtime := ⟨0, 0⟩ }

/-- A job whose modification time lies beyond the range of dates. -/
def lateJob : Job :=
  { filename := "a.job", content := "https://x.bandcamp.com/album/y",
    mtime := ⟨10000000000000, 0⟩ }

/-- A cycle in which the status request is rejected and the logs body is not JSON. -/
def offlineCycle : Cycle :=
  { status := .rejected,
    queue := .body (queueBody sampleCounts none),
    logs := .unparseable,
    collection := .body (collectionVal .missing_file),
    now := "12:00:00" }

/-- A cycle whose bodies are JSON of an unexpected shape. -/
def oddCycle : Cycle :=
  { status := .body (.num ⟨5, 0⟩),
    queue := .body (.obj [("counts", .null)]),
    logs := .body (.arr []),
    collection := .body .null,
    now := "12:00:00" }

/-! # Properties -/

theorem Completion.ext_iff2 {σ : Type} (c c2 : Completion σ) :
    c = c2 ↔ c.error = c2.error ∧ c.state = c2.state := by
  cases c <;> cases c2 <;> simp [Completion.error, Completion.state]

@[simp] theorem complete_state {σ : Type} (k : Option JSError) (s : σ) :
    (complete k s).state = s := by
  cases k <;> rfl

@[simp] theorem complete_error {σ : Type} (k : Option JSError) (s : σ) :
    (complete k s).error = k := by
  cases k <;> rfl

@[simp] theorem put_same (d : Document) (id : String) (el : Element) :
    d.put id el id = some el := by
  simp [Document.put]

theorem put_other (d : Document) (id k : String) (el : Element) (h : k ≠ id) :
    d.put id el k = d k := by
  simp [Document.put, h]

@[simp] theorem put_put (d : Document) (id : String) (el el2 : Element) :
    (d.put id el).put id el2 = d.put id el2 := by
  funext k
  by_cases h : k = id <;> simp [Document.put, h]

theorem put_self (d : Document) (id : String) (el : Element) (h : d id = some el) :
    d.put id el = d := by
  funext k
  by_cases hk : k = id
  · subst hk; simp [Document.put, h]
  · simp [Document.put, hk]

theorem overwrite_frame (id : String) (f : Element → Element) (k : Option JSError) :
    Frame [id] (overwrite id f k) := by
  intro d j hj
  have hj2 : j ≠ id := by simpa using hj
  unfold overwrite
  cases h : d id with
  | none => rfl
  | some el => simp [put_other, hj2]

theorem overwrite_depends (id : String) (f : Element → Element) (k : Option JSError) :
    Depends [id] (overwrite id f k) := by
  intro d d2 h
  have h1 : d id = d2 id := h id (by simp)
  unfold overwrite
  rw [← h1]
  cases hd : d id with
  | none =>
    refine ⟨rfl, ?_⟩
    intro j hj
    have : j = id := by simpa using hj
    subst this
    simp [Completion.state, hd, ← h1]
  | some el =>
    refine ⟨by simp, ?_⟩
    intro j hj
    have : j = id := by simpa using hj
    subst this
    simp

theorem overwrite_idem (id : String) (f : Element → Element) (k : Option JSError)
    (hf : ∀ el, f (f el) = f el) : Idem (overwrite id f k) := by
  intro d
  unfold overwrite
  cases hd : d id with
  | none => simp [Completion.state, hd]
  | some el => simp [hf]

theorem overwrite_keeps (id : String) (f : Element → Element) (k : Option JSError) :
    Keeps (overwrite id f k) := by
  intro d j
  unfold overwrite
  cases hd : d id with
  | none => simp [Completion.state]
  | some el =>
    by_cases hj : j = id
    · subst hj; simp [hd]
    · simp [put_other, hj]

theorem overwrite_local (id : String) (f : Element → Element) (k : Option JSError) :
    Local [id] (overwrite id f k) :=
  ⟨overwrite_frame id f k, overwrite_depends id f k, overwrite_keeps id f k⟩

theorem raise_local (e : JSError) (S : List String) : Local S (raise e) := by
  refine ⟨fun d k _ => rfl, fun d d2 h => ⟨rfl, fun k hk => h k hk⟩, fun d k => rfl⟩

theorem raise_idem (e : JSError) : Idem (raise e) := fun _ => rfl

theorem Local.mono {S T : List String} {op : Stmt} (h : Local S op) (hST : S ⊆ T) :
    Local T op := by
  obtain ⟨hf, hd, hk⟩ := h
  refine ⟨fun d k hkT => hf d k (fun hkS => hkT (hST hkS)), ?_, hk⟩
  intro d d2 hagree
  have h1 := hd d d2 (fun k hk => hagree k (hST hk))
  refine ⟨h1.1, fun k hkT => ?_⟩
  by_cases hkS : k ∈ S
  · exact h1.2 k hkS
  · rw [hf d k hkS, hf d2 k hkS]; exact hagree k hkT

theorem seq_local {S T : List String} {a b : Stmt} (ha : Local S a) (hb : Local T b) :
    Local (S ++ T) (seq a b) := by
  have ha2 : Local (S ++ T) a := ha.mono (List.subset_append_left S T)
  have hb2 : Local (S ++ T) b := hb.mono (List.subset_append_right S T)
  obtain ⟨haf, had, hak⟩ := ha2
  obtain ⟨hbf, hbd, hbk⟩ := hb2
  refine ⟨?_, ?_, ?_⟩
  · intro d k hk
    have h1 := haf d k hk
    unfold seq
    cases hc : a d with
    | normal d1 =>
      rw [hc] at h1
      simp only [Completion.andThen]
      rw [hbf d1 k hk]; exact h1
    | abrupt e d1 => rw [hc] at h1; exact h1
  · intro d d2 hagree
    have h1 := had d d2 hagree
    unfold seq
    cases hc : a d with
    | normal d1 =>
      cases hc2 : a d2 with
      | normal d3 =>
        rw [hc, hc2] at h1
        simp only [Completion.andThen]
        exact hbd d1 d3 h1.2
      | abrupt e d3 => rw [hc, hc2] at h1; simp [Completion.error] at h1
    | abrupt e d1 =>
      cases hc2 : a d2 with
      | normal d3 => rw [hc, hc2] at h1; simp [Completion.error] at h1
      | abrupt e2 d3 => rw [hc, hc2] at h1; exact h1
  · intro d k
    have h1 := hak d k
    unfold seq
    cases hc : a d with
    | normal d1 =>
      rw [hc] at h1
      simp only [Completion.andThen]
      rw [hbk d1 k]; exact h1
    | abrupt e d1 => rw [hc] at h1; exact h1

theorem seq_idem {S T : List String} {a b : Stmt} (ha : Local S a) (hb : Local T b)
    (hdisj : ∀ k ∈ S, k ∉ T) (hia : Idem a) (hib : Idem b) : Idem (seq a b) := by
  intro d
  unfold seq
  cases hc : a d with
  | abrupt e d1 =>
    have h1 := hia d
    rw [hc] at h1
    simp only [Completion.andThen, Completion.state] at h1 ⊢
    rw [h1]
  | normal d1 =>
    have h1 := hia d
    rw [hc] at h1
    simp only [Completion.state] at h1
    simp only [Completion.andThen]
    -- the document `b` leaves agrees with `d1` on `S`
    have hagree : ∀ k ∈ S, (b d1).state k = d1 k := fun k hk => hb.1 d1 k (hdisj k hk)
    have h2 := ha.2.1 (b d1).state d1 hagree
    rw [h1] at h2
    have h3 : a (b d1).state = .normal (b d1).state := by
      rw [Completion.ext_iff2]
      refine ⟨h2.1, ?_⟩
      funext k
      by_cases hk : k ∈ S
      · rw [h2.2 k hk]; simp only [Completion.state]; exact (hagree k hk).symm
      · rw [ha.1 _ k hk]; rfl
    rw [h3]
    simp only [Completion.andThen]
    exact hib d1

theorem whenPresent_local {S : List String} {op : Stmt} (id : String) (hid : id ∈ S)
    (h : Local S op) : Local S (whenPresent id op) := by
  obtain ⟨hf, hd, hk⟩ := h
  refine ⟨?_, ?_, ?_⟩
  · intro d k hkS
    unfold whenPresent
    cases hc : d id with
    | none => rfl
    | some el => exact hf d k hkS
  · intro d d2 hagree
    unfold whenPresent
    rw [← hagree id hid]
    cases hc : d id with
    | none => exact ⟨rfl, fun k hk => hagree k hk⟩
    | some el => exact hd d d2 hagree
  · intro d k
    unfold whenPresent
    cases hc : d id with
    | none => rfl
    | some el => exact hk d k

theorem whenPresent_idem {op : Stmt} (id : String) (hk : Keeps op) (h : Idem op) :
    Idem (whenPresent id op) := by
  intro d
  unfold whenPresent
  cases hc : d id with
  | none => simp [Completion.state, hc]
  | some el =>
    have h1 := hk d id
    rw [hc] at h1
    simp only [Option.isSome_some] at h1
    obtain ⟨el2, hel2⟩ := Option.isSome_iff_exists.mp h1
    simp only [hel2]
    exact h d

theorem appendRows_eq {α : Type} (id : String) (mk : α → Except JSError Node) :
    ∀ (xs : List α) (d : Document) (el : Element), d id = some el →
      appendRows id mk xs d = complete (firstError mk xs)
        (d.put id { el with childNodes := el.childNodes ++ builtRows mk xs })
  | [], d, el, h => by
    simp [appendRows, firstError, builtRows, complete, put_self d id el h]
  | x :: xs, d, el, h => by
    unfold appendRows firstError builtRows
    cases hx : mk x with
    | error e => simp [complete, put_self d id el h]
    | ok row =>
      simp only [appendChild, h, Completion.andThen]
      rw [appendRows_eq id mk xs _ _ (put_same d id _)]
      simp

theorem skip_local (S : List String) : Local S skip :=
  ⟨fun _ _ _ => rfl, fun _ _ h => ⟨rfl, fun k hk => h k hk⟩, fun _ _ => rfl⟩

theorem skip_idem : Idem skip := fun _ => rfl

theorem Simple.local {id : String} {op : Stmt} (h : Simple id op) : Local [id] op := by
  rcases h with ⟨e, rfl⟩ | ⟨f, k, _, rfl⟩
  · exact raise_local e _
  · exact overwrite_local id f k

theorem Simple.idem {id : String} {op : Stmt} (h : Simple id op) : Idem op := by
  rcases h with ⟨e, rfl⟩ | ⟨f, k, hf, rfl⟩
  · exact raise_idem e
  · exact overwrite_idem id f k hf

theorem setTextContent_eq (id s : String) :
    setTextContent id s = overwrite id (fun el => { el with childNodes := textNodes s }) none := by
  funext d
  unfold setTextContent overwrite
  cases d id <;> rfl

theorem setInnerHTML_eq (id html : String) :
    setInnerHTML id html =
      overwrite id (fun el => { el with childNodes := fragment html }) none := by
  funext d
  unfold setInnerHTML overwrite
  cases d id <;> rfl

theorem setTextContent_simple (id s : String) : Simple id (setTextContent id s) := by
  refine Or.inr ⟨_, none, ?_, setTextContent_eq id s⟩
  intro el; rfl

theorem setInnerHTML_simple (id html : String) : Simple id (setInnerHTML id html) := by
  refine Or.inr ⟨_, none, ?_, setInnerHTML_eq id html⟩
  intro el; rfl

theorem displayStmt_eq (id v : String) :
    displayStmt id v = whenPresent id (overwrite id (fun el => { el with display := v }) none) := by
  funext d
  unfold displayStmt setDisplayIfPresent whenPresent overwrite
  cases h : d id <;> simp [complete]

theorem displayStmt_local (id v : String) : Local [id] (displayStmt id v) := by
  rw [displayStmt_eq]
  exact whenPresent_local id (by simp) (overwrite_local id _ none)

theorem displayStmt_idem (id v : String) : Idem (displayStmt id v) := by
  rw [displayStmt_eq]
  exact whenPresent_idem id (overwrite_keeps id _ none) (overwrite_idem id _ none fun _ => rfl)

theorem updateHeader_eq (now : String) (alive : Bool) :
    updateHeader now alive =
      overwrite "header-status"
        (fun el => { el with
          childNodes := textNodes (if alive then "STATUS: ONLINE - " ++ now else "STATUS: OFFLINE"),
          color := if alive then "black" else "red" }) none := by
  funext d
  unfold updateHeader overwrite setTextContent setColor
  cases alive <;> cases h : d "header-status" <;> simp [Completion.andThen, complete]

theorem updateHeader_simple (now : String) (alive : Bool) :
    Simple "header-status" (updateHeader now alive) := by
  refine Or.inr ⟨_, none, ?_, updateHeader_eq now alive⟩
  intro el; rfl

theorem setCount_simple (E : Engine) (id key : String) (counts : JSVal) :
    Simple id (setCount E id key counts) := by
  cases h1 : getProp counts key with
  | error e =>
    refine Or.inl ⟨e, ?_⟩
    funext d
    simp [setCount, h1, raise]
  | ok v =>
    cases h2 : domString E v with
    | error e =>
      refine Or.inl ⟨e, ?_⟩
      funext d
      simp [setCount, h1, h2, raise]
    | ok t =>
      have : setCount E id key counts = setTextContent id t := by
        funext d
        simp [setCount, h1, h2]
      rw [this]
      exact setTextContent_simple id t

theorem updateQueue_eq (E : Engine) (counts : JSVal) :
    updateQueue E counts =
      seq (seq (seq (setCount E "count-pending" "pending" counts)
        (setCount E "count-in-progress" "in_progress" counts))
        (setCount E "count-failed" "failed" counts))
        (setCount E "count-done" "done" counts) := rfl

/-- The ids `updateQueue` writes to. -/
theorem updateQueue_local (E : Engine) (counts : JSVal) :
    Local ["count-pending", "count-in-progress", "count-failed", "count-done"]
      (updateQueue E counts) := by
  rw [updateQueue_eq]
  exact seq_local (seq_local (seq_local (setCount_simple E _ _ counts).local
    (setCount_simple E _ _ counts).local) (setCount_simple E _ _ counts).local)
    (setCount_simple E _ _ counts).local

theorem updateQueue_idem (E : Engine) (counts : JSVal) : Idem (updateQueue E counts) := by
  rw [updateQueue_eq]
  have h1 := (setCount_simple E "count-pending" "pending" counts)
  have h2 := (setCount_simple E "count-in-progress" "in_progress" counts)
  have h3 := (setCount_simple E "count-failed" "failed" counts)
  have h4 := (setCount_simple E "count-done" "done" counts)
  have i12 : Idem (seq _ _) := seq_idem h1.local h2.local (by decide) h1.idem h2.idem
  have l12 := seq_local h1.local h2.local
  have i123 : Idem (seq _ _) := seq_idem l12 h3.local (by decide) i12 h3.idem
  have l123 := seq_local l12 h3.local
  exact seq_idem l123 h4.local (by decide) i123 h4.idem

theorem reset_raise (id : String) (e : JSError) (d : Document) :
    ((setInnerHTML id "" d).andThen fun d1 => .abrupt e d1) =
      overwrite id (fun el => { el with childNodes := [] }) (some e) d := by
  unfold setInnerHTML overwrite
  cases hd : d id with
  | none => rfl
  | some el => simp [Completion.andThen, complete, fragment]

theorem reset_rows {α : Type} (id : String) (mk : α → Except JSError Node) (xs : List α)
    (d : Document) :
    (setInnerHTML id "" d).andThen (appendRows id mk xs) =
      overwrite id (fun el => { el with childNodes := builtRows mk xs }) (firstError mk xs) d := by
  unfold setInnerHTML overwrite
  cases hd : d id with
  | none => rfl
  | some el =>
    simp only [Completion.andThen]
    rw [appendRows_eq id mk xs _ _ (put_same d id _)]
    simp [fragment]

theorem updateSystemd_simple (E : Engine) (units : JSVal) :
    Simple "systemd-stats" (updateSystemd E units) := by
  cases hx : Object_entries E units with
  | error e =>
    have h : updateSystemd E units =
        overwrite "systemd-stats" (fun el => { el with childNodes := [] }) (some e) := by
      funext d
      simp only [updateSystemd, hx]
      exact reset_raise _ e d
    refine Or.inr ⟨_, _, ?_, h⟩
    intro el; rfl
  | ok entries =>
    have h : updateSystemd E units =
        overwrite "systemd-stats"
          (fun el => { el with childNodes := builtRows (unitRow E) entries })
          (firstError (unitRow E) entries) := by
      funext d
      simp only [updateSystemd, hx]
      exact reset_rows _ _ entries d
    refine Or.inr ⟨_, _, ?_, h⟩
    intro el; rfl

theorem updateCurrentJob_simple (E : Engine) (job : JSVal) :
    Simple "job-details" (updateCurrentJob E job) := by
  by_cases ht : truthy job = true
  · cases hm : jobMarkup E job with
    | error e =>
      refine Or.inl ⟨e, ?_⟩
      funext d
      simp [updateCurrentJob, ht, hm, raise]
    | ok html =>
      have : updateCurrentJob E job = setInnerHTML "job-details" html := by
        funext d
        simp [updateCurrentJob, ht, hm]
      rw [this]
      exact setInnerHTML_simple _ _
  · have : updateCurrentJob E job = setInnerHTML "job-details" idleHTML := by
      funext d
      simp [updateCurrentJob, ht]
    rw [this]
    exact setInnerHTML_simple _ _

theorem updateLogs_cases (E : Engine) (logs : JSVal) :
    (∃ e, updateLogs E logs = raise e) ∨
      ∃ text, updateLogs E logs =
        seq (setTextContent "mini-logs" text) (setTextContent "full-logs" text) := by
  cases h1 : Object_entries E logs with
  | error e =>
    refine Or.inl ⟨e, ?_⟩
    funext d
    simp [updateLogs, h1, raise]
  | ok entries =>
    cases h2 : collectLines E entries [] with
    | error e =>
      refine Or.inl ⟨e, ?_⟩
      funext d
      simp [updateLogs, h1, h2, raise]
    | ok allLines =>
      refine Or.inr ⟨Array_join "\n" allLines, ?_⟩
      funext d
      simp [updateLogs, h1, h2, seq]

theorem updateLogs_local (E : Engine) (logs : JSVal) :
    Local ["mini-logs", "full-logs"] (updateLogs E logs) := by
  rcases updateLogs_cases E logs with ⟨e, h⟩ | ⟨text, h⟩
  · rw [h]; exact raise_local e _
  · rw [h]
    exact seq_local (setTextContent_simple _ _).local (setTextContent_simple _ _).local

theorem updateLogs_idem (E : Engine) (logs : JSVal) : Idem (updateLogs E logs) := by
  rcases updateLogs_cases E logs with ⟨e, h⟩ | ⟨text, h⟩
  · rw [h]; exact raise_idem e
  · rw [h]
    exact seq_idem (setTextContent_simple _ _).local (setTextContent_simple _ _).local
      (by decide) (setTextContent_simple _ _).idem (setTextContent_simple _ _).idem

theorem updateTarget_cases (E : Engine) (data : JSVal) (t : Target) :
    ∃ op, updateTarget E data t = whenPresent t.body op ∧
      ((∃ e, op = raise e) ∨
        ∃ v f k, (∀ el : Element, f (f el) = f el) ∧
          op = seq (displayStmt t.warning v) (overwrite t.body f k)) := by
  cases hs : getProp data "status" with
  | error e =>
    refine ⟨raise e, ?_, Or.inl ⟨e, rfl⟩⟩
    funext d
    unfold updateTarget whenPresent
    cases hb : d t.body <;> simp [hs, raise]
  | ok status =>
    by_cases hm : strictEqStr status "missing_file" = true
    · refine ⟨seq (displayStmt t.warning "block")
        (overwrite t.body (fun el => { el with childNodes := fragment noDataHTML }) none), ?_,
        Or.inr ⟨_, _, _, ?_, rfl⟩⟩
      · funext d
        unfold updateTarget whenPresent
        cases hb : d t.body with
        | none => rfl
        | some el =>
          simp only [hs, hm, if_true, seq, displayStmt, Completion.andThen, setInnerHTML_eq]
      · intro el; rfl
    · cases hi : getProp data "items" with
      | error e =>
        refine ⟨seq (displayStmt t.warning "none")
          (overwrite t.body (fun el => { el with childNodes := [] }) (some e)), ?_,
          Or.inr ⟨_, _, _, ?_, rfl⟩⟩
        · funext d
          unfold updateTarget whenPresent
          cases hb : d t.body with
          | none => rfl
          | some el =>
            simp only [hs, hm, hi, seq, displayStmt, Completion.andThen]
            exact reset_raise _ e _
        · intro el; rfl
      | ok iv =>
        cases hf : forEachItems iv with
        | error e =>
          refine ⟨seq (displayStmt t.warning "none")
            (overwrite t.body (fun el => { el with childNodes := [] }) (some e)), ?_,
            Or.inr ⟨_, _, _, ?_, rfl⟩⟩
          · funext d
            unfold updateTarget whenPresent
            cases hb : d t.body with
            | none => rfl
            | some el =>
              simp only [hs, hm, hi, hf, seq, displayStmt, Completion.andThen]
              exact reset_raise _ e _
          · intro el; rfl
        | ok items =>
          refine ⟨seq (displayStmt t.warning "none")
            (overwrite t.body (fun el => { el with childNodes := builtRows (itemRow E) items })
              (firstError (itemRow E) items)), ?_,
            Or.inr ⟨_, _, _, ?_, rfl⟩⟩
          · funext d
            unfold updateTarget whenPresent
            cases hb : d t.body with
            | none => rfl
            | some el =>
              simp only [hs, hm, hi, hf, seq, displayStmt, Completion.andThen]
              exact reset_rows _ _ items _
          · intro el; rfl

theorem updateTarget_local (E : Engine) (data : JSVal) (t : Target) :
    Local [t.warning, t.body] (updateTarget E data t) := by
  obtain ⟨op, h, hop⟩ := updateTarget_cases E data t
  rw [h]
  apply whenPresent_local t.body (by simp)
  rcases hop with ⟨e, rfl⟩ | ⟨v, f, k, _, rfl⟩
  · exact raise_local e _
  · exact seq_local (displayStmt_local _ _) (overwrite_local _ _ _)

theorem updateTarget_idem (E : Engine) (data : JSVal) (t : Target) (ht : t.warning ≠ t.body) :
    Idem (updateTarget E data t) := by
  obtain ⟨op, h, hop⟩ := updateTarget_cases E data t
  rw [h]
  rcases hop with ⟨e, rfl⟩ | ⟨v, f, k, hf, rfl⟩
  · exact whenPresent_idem _ (raise_local e []).2.2 (raise_idem e)
  · have hl := seq_local (displayStmt_local t.warning v) (overwrite_local t.body f k)
    refine whenPresent_idem _ hl.2.2 ?_
    refine seq_idem (displayStmt_local _ _) (overwrite_local _ _ _) ?_ (displayStmt_idem _ _)
      (overwrite_idem _ _ _ hf)
    intro k hk
    have : k = t.warning := by simpa using hk
    subst this
    simpa using ht

theorem updateCollection_eq (E : Engine) (data : JSVal) :
    updateCollection E data =
      seq (updateTarget E data ⟨"collection-list-body", "collection-warning"⟩)
        (seq (updateTarget E data
          ⟨"collection-list-body-dashboard", "collection-warning-dashboard"⟩) skip) := rfl

theorem updateCollection_local (E : Engine) (data : JSVal) :
    Local ["collection-warning", "collection-list-body", "collection-warning-dashboard",
      "collection-list-body-dashboard"] (updateCollection E data) := by
  rw [updateCollection_eq]
  exact seq_local (updateTarget_local E data ⟨"collection-list-body", "collection-warning"⟩)
    (seq_local (updateTarget_local E data
      ⟨"collection-list-body-dashboard", "collection-warning-dashboard"⟩) (skip_local []))

theorem updateCollection_idem (E : Engine) (data : JSVal) :
    Idem (updateCollection E data) := by
  rw [updateCollection_eq]
  have l1 := updateTarget_local E data ⟨"collection-list-body", "collection-warning"⟩
  have l2 := updateTarget_local E data
    ⟨"collection-list-body-dashboard", "collection-warning-dashboard"⟩
  have i1 := updateTarget_idem E data ⟨"collection-list-body", "collection-warning"⟩
    (by decide)
  have i2 := updateTarget_idem E data
    ⟨"collection-list-body-dashboard", "collection-warning-dashboard"⟩ (by decide)
  have l2s := seq_local l2 (skip_local [])
  have i2s : Idem (seq _ skip) := seq_idem l2 (skip_local []) (by simp) i2 skip_idem
  exact seq_idem l1 l2s (by decide) i1 i2s

theorem ToString_str (E : Engine) (s : String) : ToString E (.str s) = .ok s := by
  simp [ToString]

theorem unitRow_str (E : Engine) (u : String × String) :
    unitRow E (u.1, JSVal.str u.2) = .ok (unitNode u) := by
  simp [unitRow, ToString_str, unitNode]

theorem builtRows_map_ok {α β : Type} (mk : β → Except JSError Node) (g : α → β)
    (node : α → Node) (h : ∀ x, mk (g x) = .ok (node x)) :
    ∀ xs : List α, builtRows mk (xs.map g) = xs.map node ∧ firstError mk (xs.map g) = none
  | [] => ⟨rfl, rfl⟩
  | x :: xs => by
    have ih := builtRows_map_ok mk g node h xs
    simp [builtRows, firstError, h, ih.1, ih.2]

theorem itemRow_itemVal (E : Engine) (i : CollectionItem) :
    itemRow E (itemVal i) = .ok (itemNode i) := by
  simp [itemRow, itemVal, getProp, propValue, ToString_str, itemNode]

theorem Array_join_cons_append (sep p a : String) (as : List String) :
    Array_join sep ((p ++ a) :: as) = p ++ Array_join sep (a :: as) := by
  cases as with
  | nil => rfl
  | cons b bs => simp [Array_join, String.append_assoc]

theorem intercalate_go_eq (sep : String) :
    ∀ (xs : List String) (acc : String),
      String.intercalate.go acc sep xs = Array_join sep (acc :: xs)
  | [], acc => rfl
  | a :: as, acc => by
    rw [String.intercalate.go, intercalate_go_eq sep as, Array_join_cons_append]
    simp [Array_join, String.append_assoc]

theorem Array_join_eq_intercalate (sep : String) (xs : List String) :
    Array_join sep xs = sep.intercalate xs := by
  cases xs with
  | nil => rfl
  | cons a as => rw [String.intercalate, intercalate_go_eq]

theorem pushLines_str (E : Engine) (name : String) :
    ∀ (lines : List String) (acc : List String),
      pushLines E name (lines.map JSVal.str) acc =
        .ok (acc ++ lines.map fun line => "[" ++ name ++ "] " ++ line)
  | [], acc => by simp [pushLines]
  | l :: ls, acc => by
    simp [pushLines, ToString_str, pushLines_str E name ls]

theorem collectLines_logs (E : Engine) :
    ∀ (logs : List (String × List String)) (acc : List String),
      collectLines E (logs.map fun l => (l.1, JSVal.arr (l.2.map JSVal.str))) acc =
        .ok (acc ++ logs.flatMap fun l => l.2.map fun line => "[" ++ l.1 ++ "] " ++ line)
  | [], acc => by simp [collectLines]
  | l :: ls, acc => by
    simp [collectLines, forEachItems, pushLines_str, collectLines_logs E ls]

theorem propValue_mem (k : String) :
    ∀ (ms : List (String × JSVal)) (v : JSVal), propValue k ms = some v →
      ∃ m ∈ ms, m.1 = k ∧ m.2 = v
  | [], v, h => by simp [propValue] at h
  | m :: rest, v, h => by
    unfold propValue at h
    cases hr : propValue k rest with
    | some w =>
      rw [hr] at h
      simp only [Option.some.injEq] at h
      obtain ⟨m2, hm2, h2⟩ := propValue_mem k rest w hr
      exact ⟨m2, List.mem_cons_of_mem _ hm2, h2.1, h ▸ h2.2⟩
    | none =>
      rw [hr] at h
      by_cases hk : m.1 = k
      · simp only [hk, if_true, Option.some.injEq] at h
        exact ⟨m, List.mem_cons_self _ _, hk, h⟩
      · simp [hk] at h

theorem propValue_isSome (k : String) :
    ∀ ms : List (String × JSVal), k ∈ ms.map Prod.fst → (propValue k ms).isSome = true
  | [], h => by simp at h
  | m :: rest, h => by
    unfold propValue
    cases hr : propValue k rest with
    | some w => rfl
    | none =>
      have hk : m.1 = k := by
        rcases List.mem_cons.mp h with h1 | h1
        · exact h1.symm
        · have := propValue_isSome k rest h1
          rw [hr] at this
          simp at this
      simp [hk]

theorem propNames_subset :
    ∀ (ms : List (String × JSVal)) (k : String), k ∈ propNames ms → k ∈ ms.map Prod.fst
  | [], k, h => by simp [propNames] at h
  | m :: rest, k, h => by
    unfold propNames at h
    rcases List.mem_cons.mp h with h1 | h1
    · simp [h1]
    · have := propNames_subset rest k (List.mem_of_mem_filter h1)
      exact List.mem_cons_of_mem _ this

theorem ownKeys_subset (ms : List (String × JSVal)) (k : String) (h : k ∈ ownKeys ms) :
    k ∈ propNames ms := by
  unfold ownKeys at h
  rcases List.mem_append.mp h with h1 | h1
  · obtain ⟨a, ha, hak⟩ := List.mem_map.mp h1
    have ha2 := (List.perm_insertionSort _ _).subset ha
    obtain ⟨k2, hk2, hk3⟩ := List.mem_filterMap.mp ha2
    cases hi : arrayIndex k2 with
    | none => simp [hi] at hk3
    | some n =>
      simp only [hi, Option.map_some', Option.some.injEq] at hk3
      subst hk3
      simp only at hak
      subst hak
      exact hk2
  · exact List.mem_of_mem_filter h1

/-- Every enumerated property carries the value of a member of that name. -/
theorem ownEntries_mem (ms : List (String × JSVal)) (e : String × JSVal)
    (h : e ∈ ownEntries ms) : ∃ m ∈ ms, m.1 = e.1 ∧ m.2 = e.2 := by
  unfold ownEntries at h
  obtain ⟨k, hk, rfl⟩ := List.mem_map.mp h
  have h1 := propValue_isSome k ms (propNames_subset ms k (ownKeys_subset ms k hk))
  obtain ⟨v, hv⟩ := Option.isSome_iff_exists.mp h1
  obtain ⟨m, hm, h2⟩ := propValue_mem k ms v hv
  exact ⟨m, hm, h2.1, by simp [hv, h2.2]⟩

theorem propNames_nodup :
    ∀ ms : List (String × JSVal), (ms.map Prod.fst).Nodup → propNames ms = ms.map Prod.fst
  | [], _ => rfl
  | m :: rest, h => by
    have h2 := List.nodup_cons.mp h
    unfold propNames
    rw [propNames_nodup rest h2.2]
    simp only [List.map_cons, List.cons.injEq, true_and]
    apply List.filter_eq_self.mpr
    intro k hk
    have : k ≠ m.1 := fun hkm => h2.1 (hkm ▸ hk)
    simpa using this

theorem propValue_nodup :
    ∀ (ms : List (String × JSVal)), (ms.map Prod.fst).Nodup → ∀ m ∈ ms,
      propValue m.1 ms = some m.2
  | [], _, m, hm => by simp at hm
  | m0 :: rest, h, m, hm => by
    have h2 := List.nodup_cons.mp h
    unfold propValue
    rcases List.mem_cons.mp hm with h1 | h1
    · subst h1
      cases hr : propValue m.1 rest with
      | some w =>
        obtain ⟨m2, hm2, h3⟩ := propValue_mem m.1 rest w hr
        exact absurd (List.mem_map.mpr ⟨m2, hm2, h3.1⟩) h2.1
      | none => simp
    · rw [propValue_nodup rest h2.2 m h1]

/-- An object with pairwise distinct names, none of them an array index, is enumerated in
the order the body lists its members. -/
theorem ownEntries_eq (ms : List (String × JSVal)) (hnodup : (ms.map Prod.fst).Nodup)
    (hindex : ∀ m ∈ ms, arrayIndex m.1 = none) : ownEntries ms = ms := by
  have hnames := propNames_nodup ms hnodup
  have hall : ∀ k ∈ ms.map Prod.fst, arrayIndex k = none := by
    intro k hk
    obtain ⟨m, hm, rfl⟩ := List.mem_map.mp hk
    exact hindex m hm
  have h1 : (ms.map Prod.fst).filterMap (fun k => (arrayIndex k).map fun n => (n, k)) = [] := by
    apply List.filterMap_eq_nil_iff.mpr
    intro k hk
    simp [hall k hk]
  have h2 : (ms.map Prod.fst).filter (fun k => (arrayIndex k).isNone) = ms.map Prod.fst := by
    apply List.filter_eq_self.mpr
    intro k hk
    simp [hall k hk]
  unfold ownEntries ownKeys
  simp only [hnames, h1, h2, List.insertionSort, List.map_nil, List.nil_append, List.map_map]
  conv_rhs => rw [← List.map_id ms]
  apply List.map_congr_left
  intro m hm
  simp [propValue_nodup ms hnodup m hm]

theorem exists_map_eq {α β : Type} (g : α → β) :
    ∀ es : List β, (∀ e ∈ es, ∃ a, g a = e) → ∃ as : List α, as.map g = es
  | [], _ => ⟨[], rfl⟩
  | e :: es, h => by
    obtain ⟨a, ha⟩ := h e (List.mem_cons_self _ _)
    obtain ⟨as, has⟩ := exists_map_eq g es (fun e2 he2 => h e2 (List.mem_cons_of_mem _ he2))
    exact ⟨a :: as, by simp [ha, has]⟩

/-- The enumeration of a units mapping is again a list of names with string statuses. -/
theorem unitsVal_entries (E : Engine) (units : List (String × String)) :
    ∃ units2 : List (String × String),
      Object_entries E (unitsVal units) =
        .ok (units2.map fun u => (u.1, JSVal.str u.2)) := by
  have h := exists_map_eq (fun u : String × String => (u.1, JSVal.str u.2))
    (ownEntries (units.map fun u => (u.1, JSVal.str u.2))) (by
      intro e he
      obtain ⟨m, hm, h1, h2⟩ := ownEntries_mem _ e he
      obtain ⟨u, _, rfl⟩ := List.mem_map.mp hm
      exact ⟨(e.1, u.2), Prod.ext rfl (by simpa using h2)⟩)
  obtain ⟨units2, h2⟩ := h
  exact ⟨units2, by simp [Object_entries, unitsVal, h2]⟩

/-- The enumeration of a logs mapping is again a list of names with lists of lines. -/
theorem logsVal_entries (E : Engine) (logs : List (String × List String)) :
    ∃ logs2 : List (String × List String),
      Object_entries E (logsVal logs) =
        .ok (logs2.map fun l => (l.1, JSVal.arr (l.2.map JSVal.str))) := by
  have h := exists_map_eq (fun l : String × List String => (l.1, JSVal.arr (l.2.map JSVal.str)))
    (ownEntries (logs.map fun l => (l.1, JSVal.arr (l.2.map JSVal.str)))) (by
      intro e he
      obtain ⟨m, hm, h1, h2⟩ := ownEntries_mem _ e he
      obtain ⟨l, _, rfl⟩ := List.mem_map.mp hm
      exact ⟨(e.1, l.2), Prod.ext rfl (by simpa using h2)⟩)
  obtain ⟨logs2, h2⟩ := h
  exact ⟨logs2, by simp [Object_entries, logsVal, h2]⟩

theorem updateLogs_of_entries (E : Engine) (v : JSVal) (logs : List (String × List String))
    (h : Object_entries E v =
      .ok (logs.map fun l => (l.1, JSVal.arr (l.2.map JSVal.str)))) :
    updateLogs E v =
      seq (setTextContent "mini-logs" (flattenLogsSpec logs))
        (setTextContent "full-logs" (flattenLogsSpec logs)) := by
  funext d
  simp [updateLogs, h, collectLines_logs, Array_join_eq_intercalate, flattenLogsSpec, seq]

theorem updateSystemd_of_entries (E : Engine) (v : JSVal) (units : List (String × String))
    (h : Object_entries E v = .ok (units.map fun u => (u.1, JSVal.str u.2))) :
    updateSystemd E v =
      overwrite "systemd-stats" (fun el => { el with childNodes := units.map unitNode }) none := by
  funext d
  have h2 := builtRows_map_ok (unitRow E) (fun u : String × String => (u.1, JSVal.str u.2))
    unitNode (unitRow_str E) units
  simp only [updateSystemd, h]
  rw [reset_rows, h2.1, h2.2]

theorem fragment_ne (s : String) (h : s ≠ "") : fragment s = [.markup s] := by
  simp [fragment, h]

theorem str_head (a b : String) (c : Char) (cs : List Char) (ha : a.data = c :: cs) :
    (a ++ b).data = c :: (cs ++ b.data) := by
  rw [String.data_append, ha]; rfl

theorem jobHTML_data (f c t : String) :
    ∃ cs, (jobHTML f c t).data = '\n' :: cs := by
  unfold jobHTML
  simp only [String.append_assoc]
  exact ⟨_, str_head _ _ '\n' _ rfl⟩

theorem jobHTML_ne_empty (f c t : String) : jobHTML f c t ≠ "" := by
  intro h
  obtain ⟨cs, hcs⟩ := jobHTML_data f c t
  rw [h] at hcs
  exact absurd hcs (by simp)

theorem jobMarkup_job (E : Engine) (j : Job) :
    jobMarkup E (jobVal (some j)) =
      .ok (jobHTML j.filename j.content (E.dateToLocaleString (timeValue E j.mtime))) := by
  simp [jobMarkup, jobVal, getProp, propValue, ToString_str, dateString]

theorem updateTarget_missing (E : Engine) (t : Target) :
    updateTarget E (collectionVal .missing_file) t =
      whenPresent t.body (seq (displayStmt t.warning "block")
        (overwrite t.body (fun el => { el with childNodes := [.markup noDataHTML] }) none)) := by
  funext d
  unfold updateTarget whenPresent
  cases hb : d t.body with
  | none => rfl
  | some el =>
    have hs : getProp (collectionVal .missing_file) "status" = .ok (.str "missing_file") := rfl
    have hm : strictEqStr (.str "missing_file") "missing_file" = true := by decide
    simp only [hs, hm, if_true, seq, displayStmt, Completion.andThen, setInnerHTML_eq,
      fragment_ne noDataHTML (by decide)]

theorem updateTarget_ok (E : Engine) (items : List CollectionItem) (t : Target) :
    updateTarget E (collectionVal (.ok items)) t =
      whenPresent t.body (seq (displayStmt t.warning "none")
        (overwrite t.body (fun el => { el with childNodes := items.map itemNode }) none)) := by
  funext d
  unfold updateTarget whenPresent
  cases hb : d t.body with
  | none => rfl
  | some el =>
    have hs : getProp (collectionVal (.ok items)) "status" = .ok (.str "ok") := rfl
    have hm : strictEqStr (.str "ok") "missing_file" = false := by decide
    have hi : getProp (collectionVal (.ok items)) "items" = .ok (.arr (items.map itemVal)) := rfl
    have h := builtRows_map_ok (itemRow E) itemVal itemNode (itemRow_itemVal E) items
    simp only [hs, hm, hi, forEachItems, seq, displayStmt, Completion.andThen,
      Bool.false_eq_true, if_false]
    refine (reset_rows _ _ _ _).trans ?_
    rw [h.1, h.2]

/-- What `updateCollection` shows for a well-formed response: the banner setting and the
rows. -/
theorem updateTarget_shown (E : Engine) (cv : CollectionView) (t : Target) :
    ∃ v rows, updateTarget E (collectionVal cv) t =
      whenPresent t.body (seq (displayStmt t.warning v)
        (overwrite t.body (fun el => { el with childNodes := rows }) none)) := by
  cases cv with
  | missing_file => exact ⟨_, _, updateTarget_missing E t⟩
  | ok items => exact ⟨_, _, updateTarget_ok E items t⟩

theorem target_written (d : Document) (t : Target) (v : String) (rows : List Node)
    (b w : Element) (hb : d t.body = some b) (hw : d t.warning = some w)
    (hne : t.body ≠ t.warning) :
    whenPresent t.body (seq (displayStmt t.warning v)
        (overwrite t.body (fun el => { el with childNodes := rows }) none)) d =
      .normal ((d.put t.warning { w with display := v }).put t.body
        { b with childNodes := rows }) := by
  have h2 : (d.put t.warning { w with display := v }) t.body = some b := by
    rw [put_other _ _ _ _ hne]; exact hb
  simp [whenPresent, hb, seq, displayStmt, setDisplayIfPresent, hw, Completion.andThen,
    overwrite, h2, complete]

theorem collection_written (E : Engine) (data : JSVal) (v : String) (rows : List Node)
    (h : ∀ t, updateTarget E data t =
      whenPresent t.body (seq (displayStmt t.warning v)
        (overwrite t.body (fun el => { el with childNodes := rows }) none)))
    (d : Document) (b1 w1 b2 w2 : Element)
    (hb1 : d "collection-list-body" = some b1) (hw1 : d "collection-warning" = some w1)
    (hb2 : d "collection-list-body-dashboard" = some b2)
    (hw2 : d "collection-warning-dashboard" = some w2) :
    updateCollection E data d = .normal (collectionWritten d v rows b1 w1 b2 w2) := by
  rw [updateCollection_eq]
  unfold seq
  rw [h, h, target_written d ⟨"collection-list-body", "collection-warning"⟩ v rows b1 w1 hb1 hw1
    (by decide)]
  simp only [Completion.andThen]
  rw [target_written _ ⟨"collection-list-body-dashboard", "collection-warning-dashboard"⟩ v rows
    b2 w2 ?_ ?_ (by decide)]
  · rfl
  · simp only [put_other _ _ "collection-list-body-dashboard" _ (by decide : ("collection-list-body-dashboard" : String) ≠ "collection-list-body"),
      put_other _ _ "collection-list-body-dashboard" _ (by decide : ("collection-list-body-dashboard" : String) ≠ "collection-warning")]
    exact hb2
  · simp only [put_other _ _ "collection-warning-dashboard" _ (by decide : ("collection-warning-dashboard" : String) ≠ "collection-list-body"),
      put_other _ _ "collection-warning-dashboard" _ (by decide : ("collection-warning-dashboard" : String) ≠ "collection-warning")]
    exact hw2

theorem error_none_iff {σ : Type} (c : Completion σ) :
    c.error = none ↔ c = .normal c.state := by
  cases c <;> simp [Completion.error, Completion.state]

theorem updateTarget_error_none (E : Engine) (cv : CollectionView) (t : Target)
    (d : Document) : (updateTarget E (collectionVal cv) t d).error = none := by
  obtain ⟨v, rows, h⟩ := updateTarget_shown E cv t
  rw [h]
  unfold whenPresent
  cases hb : d t.body with
  | none => rfl
  | some b =>
    have hk := (displayStmt_local t.warning v).2.2 d t.body
    rw [hb] at hk
    obtain ⟨b2, hb2⟩ := Option.isSome_iff_exists.mp hk
    have hn : displayStmt t.warning v d = .normal (displayStmt t.warning v d).state := rfl
    simp only [seq]
    rw [hn]
    simp only [Completion.andThen, overwrite, hb2, complete_error]

/-- On a well-formed response, what `updateCollection` leaves in the two elements of a
target is what the callback for that target alone would leave there. -/
theorem updateCollection_target (E : Engine) (cv : CollectionView) (d : Document)
    (t : Target) (ht : t ∈ targets) :
    (updateCollection E (collectionVal cv) d).error = none ∧
      ∀ k ∈ [t.warning, t.body],
        (updateCollection E (collectionVal cv) d).state k =
          (updateTarget E (collectionVal cv) t d).state k := by
  have l1 := updateTarget_local E (collectionVal cv) ⟨"collection-list-body", "collection-warning"⟩
  have l2 := updateTarget_local E (collectionVal cv)
    ⟨"collection-list-body-dashboard", "collection-warning-dashboard"⟩
  have e1 := (error_none_iff _).mp (updateTarget_error_none E cv
    ⟨"collection-list-body", "collection-warning"⟩ d)
  have hfinal : updateCollection E (collectionVal cv) d =
      updateTarget E (collectionVal cv)
        ⟨"collection-list-body-dashboard", "collection-warning-dashboard"⟩
        (updateTarget E (collectionVal cv) ⟨"collection-list-body", "collection-warning"⟩
          d).state := by
    rw [updateCollection_eq]
    unfold seq
    rw [e1]
    simp only [Completion.andThen, Completion.state]
    generalize updateTarget E (collectionVal cv)
      ⟨"collection-list-body-dashboard", "collection-warning-dashboard"⟩ _ = c
    cases c <;> rfl
  refine ⟨?_, ?_⟩
  · rw [hfinal]; exact updateTarget_error_none E cv _ _
  · intro k hk
    rw [hfinal]
    simp only [targets, List.mem_cons, List.mem_singleton, List.not_mem_nil, or_false] at ht
    rcases ht with rfl | rfl
    · have hk2 : k ∉ ["collection-warning-dashboard", "collection-list-body-dashboard"] := by
        simp only [List.mem_cons, List.mem_singleton, List.not_mem_nil, or_false] at hk ⊢
        rcases hk with rfl | rfl <;> decide
      exact l2.1 _ k hk2
    · have hagree : ∀ j ∈ ["collection-warning-dashboard", "collection-list-body-dashboard"],
          (updateTarget E (collectionVal cv) ⟨"collection-list-body", "collection-warning"⟩
            d).state j = d j := by
        intro j hj
        apply l1.1
        simp only [List.mem_cons, List.mem_singleton, List.not_mem_nil, or_false] at hj ⊢
        rcases hj with rfl | rfl <;> decide
      exact (l2.2.1 _ d hagree).2 k hk

theorem replaceFirst_head (pat rep xs : List Char) (hpat : pat ≠ []) :
    replaceFirst pat rep (pat ++ xs) = rep ++ xs := by
  cases hp : pat ++ xs with
  | nil => simp at hp; exact absurd hp.1 hpat
  | cons c cs =>
    have hpre : pat.isPrefixOf (c :: cs) = true := by
      rw [List.isPrefixOf_iff_prefix, ← hp]; exact List.prefix_append _ _
    simp only [replaceFirst, hpre, if_true]
    rw [← hp, List.drop_left]

theorem replaceFirst_absent (pat rep : List Char) :
    ∀ xs : List Char, ¬ pat <:+: xs → replaceFirst pat rep xs = xs
  | [], h => by
    have hpat : pat ≠ [] := by
      intro hp; subst hp; exact h List.nil_infix
    simp [replaceFirst, hpat]
  | c :: cs, h => by
    have hpre : ¬ pat.isPrefixOf (c :: cs) = true := by
      rw [List.isPrefixOf_iff_prefix]
      exact fun hp => h hp.isInfix
    have htail : ¬ pat <:+: cs := fun hi => h (hi.trans (List.suffix_cons c cs).isInfix)
    have ih := replaceFirst_absent pat rep cs htail
    simp [replaceFirst, hpre, ih]

/-- Removing a suffix pattern that occurs nowhere else and has no border. -/
theorem replaceFirst_suffix (pat : List Char)
    (hborder : ∀ ys : List Char, ys ≠ [] → ys.length < pat.length → ¬ pat <+: ys ++ pat) :
    ∀ xs : List Char, ¬ pat <:+: xs → pat ≠ [] → replaceFirst pat [] (xs ++ pat) = xs
  | [], _, hpat => by
    have := replaceFirst_head pat [] [] hpat
    simpa using this
  | c :: cs, h, hpat => by
    have hpre : ¬ pat.isPrefixOf (c :: cs ++ pat) = true := by
      rw [List.isPrefixOf_iff_prefix]
      intro hp
      by_cases hlen : pat.length ≤ (c :: cs).length
      · exact h (List.prefix_of_prefix_length_le hp (List.prefix_append _ _) hlen).isInfix
      · exact hborder (c :: cs) (by simp) (by omega) hp
    have htail : ¬ pat <:+: cs := fun hi => h (hi.trans (List.suffix_cons c cs).isInfix)
    have hcons : c :: cs ++ pat = c :: (cs ++ pat) := rfl
    rw [hcons] at hpre ⊢
    have ih := replaceFirst_suffix pat hborder cs htail hpat
    simp [replaceFirst, hpre, ih]

theorem service_no_border (ys : List Char) (hne : ys ≠ [])
    (hlen : ys.length < ".service".data.length) : ¬ ".service".data <+: ys ++ ".service".data := by
  intro hp
  have hlen2 : ys.length < 8 := hlen
  -- the character at position `ys.length` of the pattern is the first character of the pattern
  have h1 := List.prefix_iff_eq_take.mp hp
  have h2 : (".service".data)[ys.length]? = (ys ++ ".service".data)[ys.length]? := by
    conv_lhs => rw [h1]
    rw [List.getElem?_take]
    simp [hlen2]
  rw [List.getElem?_append_right (le_refl _)] at h2
  simp only [Nat.sub_self] at h2
  have hpos : 0 < ys.length := List.length_pos.mpr hne
  have : ∀ n, n < 8 → 0 < n → (".service".data)[n]? ≠ (".service".data)[0]? := by decide
  exact this _ hlen2 hpos h2

theorem call_eq (arg : Except JSError JSVal) (f : JSVal → Stmt) :
    call arg f = onDocument (argStmt arg f) := by
  funext p
  cases arg with
  | error e => rfl
  | ok v => rfl

theorem onDocument_andThen (a b : Stmt) (p : Page) :
    (onDocument a p).andThen (onDocument b) = onDocument (seq a b) p := by
  unfold onDocument seq
  cases ha : a p.document with
  | normal d =>
    simp only [Completion.andThen]
  | abrupt e d => rfl

theorem renderTriad_eq (E : Engine) (now : String) (s q l : JSVal) (p : Page) :
    renderTriad E now s q l p = onDocument (triadStmt E now s q l) p := by
  unfold renderTriad triadStmt
  simp only [call_eq, onDocument_andThen]

theorem argStmt_local {S : List String} (arg : Except JSError JSVal) (f : JSVal → Stmt)
    (h : ∀ v, Local S (f v)) : Local S (argStmt arg f) := by
  cases arg with
  | error e => exact raise_local e S
  | ok v => exact h v

theorem triadStmt_local (E : Engine) (now : String) (s q l : JSVal) :
    Local triadIds (triadStmt E now s q l) := by
  unfold triadStmt triadIds
  exact seq_local (seq_local (seq_local (seq_local (seq_local (seq_local
    (updateHeader_simple now true).local
    (argStmt_local _ _ fun v => (updateSystemd_simple E v).local))
    (argStmt_local _ _ fun v => updateQueue_local E v))
    (argStmt_local _ _ fun v => (updateCurrentJob_simple E v).local))
    (argStmt_local _ _ fun v => updateQueue_local E v))
    (argStmt_local _ _ fun v => (updateCurrentJob_simple E v).local))
    (argStmt_local _ _ fun v => updateLogs_local E v)

theorem onDocument_document (op : Stmt) (p : Page) :
    (onDocument op p).state.document = (op p.document).state := by
  unfold onDocument
  cases op p.document <;> rfl

theorem onDocument_error (op : Stmt) (p : Page) :
    (onDocument op p).error = (op p.document).error := by
  unfold onDocument
  cases op p.document <;> rfl

/-- What the collection step leaves is the document it got, up to the collection targets. -/
theorem collectionStep_document (E : Engine) (c : Cycle) (p : Page) :
    (∀ k, ((collectionStep E c p).state.document k).isSome = (p.document k).isSome) ∧
      ∀ k, k ∉ ["collection-warning", "collection-list-body", "collection-warning-dashboard",
        "collection-list-body-dashboard"] →
        (collectionStep E c p).state.document k = p.document k := by
  unfold collectionStep
  cases hc : c.collection with
  | rejected => exact ⟨fun k => rfl, fun k _ => rfl⟩
  | unparseable => exact ⟨fun k => rfl, fun k _ => rfl⟩
  | body v =>
    simp only [FetchOutcome.isRejected, FetchOutcome.json]
    have hl := updateCollection_local E v
    refine ⟨fun k => ?_, fun k hk => ?_⟩
    · simp only [Bool.false_eq_true, if_false]
      rw [onDocument_document]; exact hl.2.2 _ k
    · simp only [Bool.false_eq_true, if_false]
      rw [onDocument_document]; exact hl.1 _ k hk

/-- The page after the three requests of `Promise.all` were issued. -/
theorem tryBlock_failed (E : Engine) (c : Cycle) (p : Page)
    (h : c.status.failed = true ∨ c.queue.failed = true ∨ c.logs.failed = true) :
    ∃ e, tryBlock E c p =
      .abrupt e (request "/api/logs" (request "/api/queue" (request "/api/status" p))) := by
  unfold tryBlock
  rcases hs : c.status with _ | _ | s <;> rcases hq : c.queue with _ | _ | q <;>
    rcases hl : c.logs with _ | _ | l <;>
    simp [hs, hq, hl, FetchOutcome.failed, FetchOutcome.isRejected, FetchOutcome.json] at h ⊢

theorem tryBlock_bodies (E : Engine) (c : Cycle) (p : Page) (s q l : JSVal)
    (hs : c.status = .body s) (hq : c.queue = .body q) (hl : c.logs = .body l) :
    tryBlock E c p =
      (onDocument (triadStmt E c.now s q l)
        (request "/api/logs" (request "/api/queue" (request "/api/status" p)))).andThen
        (collectionStep E c) := by
  unfold tryBlock
  simp [hs, hq, hl, FetchOutcome.isRejected, FetchOutcome.json, renderTriad_eq]

theorem tryBlock_cases (c : Cycle) :
    (c.status.failed = true ∨ c.queue.failed = true ∨ c.logs.failed = true) ∨
      ∃ s q l, c.status = .body s ∧ c.queue = .body q ∧ c.logs = .body l := by
  rcases hs : c.status with _ | _ | s <;> rcases hq : c.queue with _ | _ | q <;>
    rcases hl : c.logs with _ | _ | l <;> simp [FetchOutcome.failed]

/-- The `try` block neither creates nor removes an element. -/
theorem tryBlock_keeps (E : Engine) (c : Cycle) (p : Page) (k : String) :
    ((tryBlock E c p).state.document k).isSome = (p.document k).isSome := by
  rcases tryBlock_cases c with hf | ⟨s, q, l, hs, hq, hl⟩
  · obtain ⟨e, he⟩ := tryBlock_failed E c p hf
    rw [he]; rfl
  · rw [tryBlock_bodies E c p s q l hs hq hl]
    have hk := (triadStmt_local E c.now s q l).2.2
    have h1 := onDocument_document (triadStmt E c.now s q l)
      (request "/api/logs" (request "/api/queue" (request "/api/status" p)))
    cases ht : onDocument (triadStmt E c.now s q l)
        (request "/api/logs" (request "/api/queue" (request "/api/status" p))) with
    | abrupt e pR =>
      rw [ht] at h1
      simp only [Completion.andThen, Completion.state] at h1 ⊢
      rw [h1]; exact hk _ k
    | normal pR =>
      rw [ht] at h1
      simp only [Completion.andThen]
      simp only [Completion.state] at h1
      rw [(collectionStep_document E c pR).1 k, h1]; exact hk _ k

theorem catchBlock_eq (c : Cycle) (e : JSError) (p : Page) (el : Element)
    (h : p.document "header-status" = some el) :
    catchBlock c e p = .normal
      { document := p.document.put "header-status"
          { el with childNodes := [.text "STATUS: OFFLINE"], color := "red" },
        requests := p.requests,
        console := p.console ++ [e] } := by
  unfold catchBlock
  simp [onDocument, updateHeader_eq, overwrite, h, complete, textNodes]

theorem overwrite_normalWhen (id : String) (f : Element → Element) :
    NormalWhen [id] (overwrite id f none) := by
  intro d h
  have h1 := h id (by simp)
  obtain ⟨el, hel⟩ := Option.isSome_iff_exists.mp h1
  simp [overwrite, hel]

theorem seq_normalWhen {S T : List String} {a b : Stmt} (ha : NormalWhen S a) (hk : Keeps a)
    (hb : NormalWhen T b) : NormalWhen (S ++ T) (seq a b) := by
  intro d h
  have h1 := ha d (fun k hk => h k (List.mem_append_left T hk))
  rw [error_none_iff] at h1
  unfold seq
  rw [h1]
  simp only [Completion.andThen]
  apply hb
  intro k hkT
  rw [hk d k]
  exact h k (List.mem_append_right S hkT)

theorem seq_state_frame {T : List String} {a b : Stmt} (hb : Frame T b) (d : Document)
    (k : String) (hk : k ∉ T) : (seq a b d).state k = (a d).state k := by
  unfold seq
  cases ha : a d with
  | normal d1 => simp only [Completion.andThen, Completion.state]; exact hb d1 k hk
  | abrupt e d1 => rfl

theorem setCount_countsVal (E : Engine) (id : String) (c : Counts) :
    setCount E id "pending" (countsVal c) = setTextContent id (E.numberToString ⟨c.pending, 0⟩) ∧
    setCount E id "in_progress" (countsVal c) =
      setTextContent id (E.numberToString ⟨c.in_progress, 0⟩) ∧
    setCount E id "failed" (countsVal c) = setTextContent id (E.numberToString ⟨c.failed, 0⟩) ∧
    setCount E id "done" (countsVal c) = setTextContent id (E.numberToString ⟨c.done, 0⟩) := by
  refine ⟨?_, ?_, ?_, ?_⟩ <;> funext d <;>
    simp [setCount, getProp, countsVal, propValue, domString, ToString]

theorem updateQueue_countsVal (E : Engine) (c : Counts) :
    updateQueue E (countsVal c) =
      seq (seq (seq (setTextContent "count-pending" (E.numberToString ⟨c.pending, 0⟩))
        (setTextContent "count-in-progress" (E.numberToString ⟨c.in_progress, 0⟩)))
        (setTextContent "count-failed" (E.numberToString ⟨c.failed, 0⟩)))
        (setTextContent "count-done" (E.numberToString ⟨c.done, 0⟩)) := by
  rw [updateQueue_eq, (setCount_countsVal E _ c).1, (setCount_countsVal E _ c).2.1,
    (setCount_countsVal E _ c).2.2.1, (setCount_countsVal E _ c).2.2.2]

theorem updateQueue_countsVal_normal (E : Engine) (c : Counts) :
    NormalWhen ["count-pending", "count-in-progress", "count-failed", "count-done"]
      (updateQueue E (countsVal c)) := by
  rw [updateQueue_countsVal]
  simp only [setTextContent_eq]
  exact seq_normalWhen (seq_normalWhen (seq_normalWhen (overwrite_normalWhen _ _)
    (overwrite_keeps _ _ _) (overwrite_normalWhen _ _))
    (seq_local (overwrite_local _ _ _) (overwrite_local _ _ _)).2.2 (overwrite_normalWhen _ _))
    (seq_local (seq_local (overwrite_local _ _ _) (overwrite_local _ _ _))
      (overwrite_local _ _ _)).2.2 (overwrite_normalWhen _ _)

theorem updateCurrentJob_jobVal (E : Engine) (job : Option Job) :
    ∃ html, updateCurrentJob E (jobVal job) = setInnerHTML "job-details" html := by
  cases job with
  | none =>
    refine ⟨idleHTML, ?_⟩
    funext d
    have ht : truthy (jobVal none) = false := rfl
    simp [updateCurrentJob, ht]
  | some j =>
    refine ⟨jobHTML j.filename j.content (E.dateToLocaleString (timeValue E j.mtime)), ?_⟩
    funext d
    have ht : truthy (jobVal (some j)) = true := rfl
    simp [updateCurrentJob, ht, jobMarkup_job]

theorem triadStmt_wellFormed (E : Engine) (now : String) (units : List (String × String))
    (counts : Counts) (job : Option Job) (logs : List (String × List String)) :
    triadStmt E now (statusBody units) (queueBody counts job) (logsBody logs) =
      seq (seq (seq (seq (seq (seq (updateHeader now true)
        (updateSystemd E (unitsVal units)))
        (updateQueue E (countsVal counts)))
        (updateCurrentJob E (jobVal job)))
        (updateQueue E (countsVal counts)))
        (updateCurrentJob E (jobVal job)))
        (updateLogs E (logsVal logs)) := rfl

theorem triadStmt_normal (E : Engine) (now : String) (units : List (String × String))
    (counts : Counts) (job : Option Job) (logs : List (String × List String)) :
    NormalWhen triadIds
      (triadStmt E now (statusBody units) (queueBody counts job) (logsBody logs)) := by
  have hH : NormalWhen ["header-status"] (updateHeader now true) := by
    rw [updateHeader_eq]; exact overwrite_normalWhen _ _
  have hS : NormalWhen ["systemd-stats"] (updateSystemd E (unitsVal units)) := by
    obtain ⟨units2, h2⟩ := unitsVal_entries E units
    rw [updateSystemd_of_entries E _ units2 h2]; exact overwrite_normalWhen _ _
  have hQ := updateQueue_countsVal_normal E counts
  have hJ : NormalWhen ["job-details"] (updateCurrentJob E (jobVal job)) := by
    obtain ⟨html, h⟩ := updateCurrentJob_jobVal E job
    rw [h, setInnerHTML_eq]; exact overwrite_normalWhen _ _
  have hL : NormalWhen ["mini-logs", "full-logs"] (updateLogs E (logsVal logs)) := by
    obtain ⟨logs2, h2⟩ := logsVal_entries E logs
    rw [updateLogs_of_entries E _ logs2 h2, setTextContent_eq, setTextContent_eq]
    exact seq_normalWhen (overwrite_normalWhen _ _) (overwrite_keeps _ _ _)
      (overwrite_normalWhen _ _)
  have lH := (updateHeader_simple now true).local
  have lS := (updateSystemd_simple E (unitsVal units)).local
  have lQ := updateQueue_local E (countsVal counts)
  have lJ := (updateCurrentJob_simple E (jobVal job)).local
  rw [triadStmt_wellFormed]
  unfold triadIds
  have l1 := seq_local lH lS
  have l2 := seq_local l1 lQ
  have l3 := seq_local l2 lJ
  have l4 := seq_local l3 lQ
  have l5 := seq_local l4 lJ
  exact seq_normalWhen (seq_normalWhen (seq_normalWhen (seq_normalWhen (seq_normalWhen
    (seq_normalWhen hH lH.2.2 hS) l1.2.2 hQ) l2.2.2 hJ) l3.2.2 hQ) l4.2.2 hJ) l5.2.2 hL

/-- The header the triad leaves is the one `updateHeader(true)` wrote. -/
theorem triadStmt_header (E : Engine) (now : String) (s q l : JSVal) (d : Document) :
    (triadStmt E now s q l d).state "header-status" =
      (updateHeader now true d).state "header-status" := by
  unfold triadStmt
  rw [seq_state_frame (argStmt_local _ _ fun v => updateLogs_local E v).1 _ _ (by decide),
    seq_state_frame (argStmt_local _ _ fun v => (updateCurrentJob_simple E v).local).1 _ _
      (by decide),
    seq_state_frame (argStmt_local _ _ fun v => updateQueue_local E v).1 _ _ (by decide),
    seq_state_frame (argStmt_local _ _ fun v => (updateCurrentJob_simple E v).local).1 _ _
      (by decide),
    seq_state_frame (argStmt_local _ _ fun v => updateQueue_local E v).1 _ _ (by decide),
    seq_state_frame (argStmt_local _ _ fun v => (updateSystemd_simple E v).local).1 _ _
      (by decide)]

theorem fetchStatus_eq_handle (E : Engine) (c : Cycle) (p : Page) :
    fetchStatus E c p = handle c (tryBlock E c p) := rfl

theorem catchBlock_document (c : Cycle) (e : JSError) (p : Page) (k : String)
    (hk : k ≠ "header-status") : (catchBlock c e p).state.document k = p.document k := by
  unfold catchBlock
  rw [onDocument_document]
  exact (updateHeader_simple c.now false).local.1 _ k (by simpa using hk)

/-- After the renderer calls, the rest of the cycle writes only to the header and to the
collection targets. -/
theorem afterTriad_document (E : Engine) (c : Cycle) (r : Completion Page) (k : String)
    (hk : k ∉ ["header-status", "collection-warning", "collection-list-body",
      "collection-warning-dashboard", "collection-list-body-dashboard"]) :
    (handle c (r.andThen (collectionStep E c))).state.document k = r.state.document k := by
  have hk1 : k ≠ "header-status" := fun h => hk (by simp [h])
  have hk2 : k ∉ ["collection-warning", "collection-list-body", "collection-warning-dashboard",
      "collection-list-body-dashboard"] := fun h => hk (List.mem_cons_of_mem _ h)
  cases r with
  | abrupt e pR =>
    simp only [Completion.andThen, handle, Completion.state]
    exact catchBlock_document c e pR k hk1
  | normal pR =>
    simp only [Completion.andThen]
    have h2 := (collectionStep_document E c pR).2 k hk2
    cases hc : collectionStep E c pR with
    | normal p2 => rw [hc] at h2; exact h2
    | abrupt e p2 =>
      rw [hc] at h2
      simp only [handle]
      exact (catchBlock_document c e p2 k hk1).trans h2

/-- With well-formed status, queue and logs bodies and the containers in place, a cycle
whose collection fetch fails ends in the `catch` block. -/
theorem collection_failure_offline (E : Engine) (units : List (String × String))
    (counts : Counts) (job : Option Job) (logs : List (String × List String)) (now : String)
    (coll : FetchOutcome) (p : Page) (header : Element) (hcoll : coll.failed = true)
    (hheader : p.document "header-status" = some header)
    (hpresent : ∀ k ∈ renderedIds, (p.document k).isSome = true) :
    (renderTriad E now (statusBody units) (queueBody counts job) (logsBody logs) p).error =
        none ∧
      ∃ e page, fetchStatus E (triadCycle units counts job logs coll now) p = .normal page ∧
        page.document "header-status" =
          some { header with childNodes := [.text "STATUS: OFFLINE"], color := "red" } ∧
        page.requests =
          p.requests ++ ["/api/status", "/api/queue", "/api/logs", "/api/collection"] ∧
        page.console = p.console ++ [e] := by
  have hall : ∀ k ∈ triadIds, (p.document k).isSome = true := by
    intro k hk
    by_cases hh : k = "header-status"
    · subst hh; simp [hheader]
    · apply hpresent
      simp only [triadIds, List.mem_append, List.mem_cons, List.mem_singleton,
        List.not_mem_nil, or_false] at hk
      simp only [renderedIds, List.mem_cons, List.mem_singleton, List.not_mem_nil, or_false]
      tauto
  have hnormal := triadStmt_normal E now units counts job logs p.document hall
  have hhead := triadStmt_header E now (statusBody units) (queueBody counts job)
    (logsBody logs) p.document
  rw [updateHeader_eq] at hhead
  simp only [overwrite, hheader, complete_state, put_same] at hhead
  refine ⟨?_, ?_⟩
  · rw [renderTriad_eq, onDocument_error]; exact hnormal
  · rw [error_none_iff] at hnormal
    rw [fetchStatus_eq_handle,
      tryBlock_bodies E _ p (statusBody units) (queueBody counts job) (logsBody logs) rfl rfl rfl]
    simp only [triadCycle, onDocument, request]
    rw [hnormal]
    simp only [Completion.andThen, collectionStep, request]
    cases coll with
    | body v => simp [FetchOutcome.failed] at hcoll
    | rejected =>
      simp only [FetchOutcome.isRejected, if_true, handle]
      rw [catchBlock_eq _ _ _ _ hhead]
      exact ⟨_, _, rfl, by simp, by simp, rfl⟩
    | unparseable =>
      simp only [FetchOutcome.isRejected, FetchOutcome.json, Bool.false_eq_true, if_false,
        handle]
      rw [catchBlock_eq _ _ _ _ hhead]
      exact ⟨_, _, rfl, by simp, by simp, rfl⟩

/-- Two cycles that differ only in the outcome of the collection fetch leave the same
content in every element other than the header and the collection targets. -/
theorem collection_outcome_frame (E : Engine) (c c2 : Cycle) (p : Page) (k : String)
    (hs : c.status = c2.status) (hq : c.queue = c2.queue) (hl : c.logs = c2.logs)
    (hn : c.now = c2.now)
    (hk : k ∉ ["header-status", "collection-warning", "collection-list-body",
      "collection-warning-dashboard", "collection-list-body-dashboard"]) :
    (fetchStatus E c p).state.document k = (fetchStatus E c2 p).state.document k := by
  have hk1 : k ≠ "header-status" := fun h => hk (by simp [h])
  rw [fetchStatus_eq_handle, fetchStatus_eq_handle]
  rcases tryBlock_cases c with hf | ⟨s, q, l, h1, h2, h3⟩
  · have hf2 : c2.status.failed = true ∨ c2.queue.failed = true ∨ c2.logs.failed = true := by
      rw [← hs, ← hq, ← hl]; exact hf
    obtain ⟨e, he⟩ := tryBlock_failed E c p hf
    obtain ⟨e2, he2⟩ := tryBlock_failed E c2 p hf2
    rw [he, he2]
    simp only [handle]
    rw [catchBlock_document _ _ _ k hk1, catchBlock_document _ _ _ k hk1]
  · rw [tryBlock_bodies E c p s q l h1 h2 h3,
      tryBlock_bodies E c2 p s q l (hs ▸ h1) (hq ▸ h2) (hl ▸ h3),
      afterTriad_document E c _ k hk, afterTriad_document E c2 _ k hk, hn]

theorem markupText_append :
    ∀ (xs ys : List Char) (b : Bool),
      markupText b (xs ++ ys) = markupText b xs ++ markupText (inTagAfter b xs) ys
  | [], ys, b => by cases b <;> simp [markupText, inTagAfter]
  | c :: cs, ys, true => by
    by_cases h : c = '>' <;>
      simp [markupText, inTagAfter, h, markupText_append cs ys]
  | c :: cs, ys, false => by
    by_cases h : c = '<' <;>
      simp [markupText, inTagAfter, h, markupText_append cs ys]

theorem plainText_lt (s : String) (h : plainText s = true) : ∀ c ∈ s.data, c ≠ '<' := by
  intro c hc
  have := List.all_eq_true.mp h c hc
  simp at this
  exact this.1

theorem markupText_plain :
    ∀ xs : List Char, (∀ c ∈ xs, c ≠ '<') →
      markupText false xs = xs ∧ inTagAfter false xs = false
  | [], _ => ⟨rfl, rfl⟩
  | c :: cs, h => by
    have hc : c ≠ '<' := h c (List.mem_cons_self _ _)
    have ih := markupText_plain cs (fun c2 hc2 => h c2 (List.mem_cons_of_mem _ hc2))
    simp [markupText, inTagAfter, hc, ih.1, ih.2]

theorem opensParagraph_append :
    ∀ (xs ys : List Char) (b : Bool),
      opensParagraph b (xs ++ ys) =
        (opensParagraph b xs || opensParagraph (endsWithLt b xs) ys)
  | [], ys, b => by simp [opensParagraph, endsWithLt]
  | c :: cs, ys, b => by
    simp [opensParagraph, endsWithLt, opensParagraph_append cs ys, Bool.or_assoc]

theorem opensParagraph_plain :
    ∀ xs : List Char, (∀ c ∈ xs, c ≠ '<') →
      opensParagraph false xs = false ∧ endsWithLt false xs = false
  | [], _ => ⟨rfl, rfl⟩
  | c :: cs, h => by
    have hc : c ≠ '<' := h c (List.mem_cons_self _ _)
    have ih := opensParagraph_plain cs (fun c2 hc2 => h c2 (List.mem_cons_of_mem _ hc2))
    have hb : (c == '<') = false := by simpa using hc
    simp [opensParagraph, endsWithLt, hb, ih.1, ih.2]

theorem opensParagraph_of_infix :
    ∀ (xs : List Char) (b : Bool), ['<', 'p'] <:+: xs → opensParagraph b xs = true
  | [], b, h => by simp at h
  | c :: cs, b, h => by
    rcases List.infix_cons_iff.mp h with hp | hi
    · obtain ⟨t, ht⟩ := hp
      simp only [List.cons_append, List.cons.injEq, List.nil_append] at ht
      obtain ⟨hc, ht2⟩ := ht
      subst hc
      cases cs with
      | nil => simp at ht2
      | cons c2 cs2 =>
        simp only [List.cons.injEq] at ht2
        simp [opensParagraph, ← ht2.1]
    · simp [opensParagraph, opensParagraph_of_infix cs _ hi]

theorem jobHTML_shown (f c t : String) (hf : plainText f = true) (hc : plainText c = true)
    (ht : plainText t = true) :
    markupText false (jobHTML f c t).data =
        ("\n        FILE: " ++ f ++ "\n        CONTENT: " ++ c ++ "\n        MODIFIED: " ++ t ++
          "\n    ").data ∧
      opensParagraph false (jobHTML f c t).data = false := by
  have pf := markupText_plain f.data (plainText_lt f hf)
  have pc := markupText_plain c.data (plainText_lt c hc)
  have pt := markupText_plain t.data (plainText_lt t ht)
  have qf := opensParagraph_plain f.data (plainText_lt f hf)
  have qc := opensParagraph_plain c.data (plainText_lt c hc)
  have qt := opensParagraph_plain t.data (plainText_lt t ht)
  have m1 : markupText false "\n        <div style=\"margin-bottom:10px;\"><strong>FILE:</strong> ".data
      = "\n        FILE: ".data ∧
      inTagAfter false "\n        <div style=\"margin-bottom:10px;\"><strong>FILE:</strong> ".data
        = false ∧
      opensParagraph false
        "\n        <div style=\"margin-bottom:10px;\"><strong>FILE:</strong> ".data = false ∧
      endsWithLt false
        "\n        <div style=\"margin-bottom:10px;\"><strong>FILE:</strong> ".data = false := by
    decide
  have m2 : markupText false
      "</div>\n        <div style=\"margin-bottom:10px;\"><strong>CONTENT:</strong> ".data
      = "\n        CONTENT: ".data ∧
      inTagAfter false
        "</div>\n        <div style=\"margin-bottom:10px;\"><strong>CONTENT:</strong> ".data
        = false ∧
      opensParagraph false
        "</div>\n        <div style=\"margin-bottom:10px;\"><strong>CONTENT:</strong> ".data
        = false ∧
      endsWithLt false
        "</div>\n        <div style=\"margin-bottom:10px;\"><strong>CONTENT:</strong> ".data
        = false := by
    decide
  have m3 : markupText false "</div>\n        <div><strong>MODIFIED:</strong> ".data
      = "\n        MODIFIED: ".data ∧
      inTagAfter false "</div>\n        <div><strong>MODIFIED:</strong> ".data = false ∧
      opensParagraph false "</div>\n        <div><strong>MODIFIED:</strong> ".data = false ∧
      endsWithLt false "</div>\n        <div><strong>MODIFIED:</strong> ".data = false := by
    decide
  have m4 : markupText false "</div>\n    ".data = "\n    ".data ∧
      opensParagraph false "</div>\n    ".data = false := by
    decide
  unfold jobHTML
  simp only [String.data_append, List.append_assoc]
  constructor
  · simp only [markupText_append, m1.1, m1.2.1, pf.1, pf.2, m2.1, m2.2.1, pc.1, pc.2, m3.1,
      m3.2.1, pt.1, pt.2, m4.1, List.append_assoc]
  · simp only [opensParagraph_append, m1.2.2.1, m1.2.2.2, qf.1, qf.2, m2.2.2.1, m2.2.2.2,
      qc.1, qc.2, m3.2.2.1, m3.2.2.2, qt.1, qt.2, m4.2, Bool.or_self]

theorem idle_not_in_jobHTML (f c t : String) (hf : plainText f = true)
    (hc : plainText c = true) (ht : plainText t = true) :
    ¬ occursIn idleHTML (jobHTML f c t) := by
  intro h
  have h1 : ['<', 'p'] <:+: idleHTML.data := by decide
  have h2 := opensParagraph_of_infix _ false (h1.trans h)
  rw [(jobHTML_shown f c t hf hc ht).2] at h2
  exact absurd h2 (by simp)

theorem unitColorClass_str (s : String) : unitColorClass (.str s) = dotClassSpec s := by
  by_cases h1 : s = "active"
  · subst h1; decide
  · by_cases h2 : s = "failed"
    · subst h2; decide
    · simp [unitColorClass, dotClassSpec, strictEqStr, h1, h2]

theorem unitNode_eq (u : String × String) : unitNode u = unitRowSpec u := by
  simp [unitNode, unitRowSpec, unitRowHTML, unitColorClass_str]

theorem timeValue_whole (E : Engine) (n : Int) (h : n.natAbs * 1000 ≤ 8640000000000000) :
    timeValue E ⟨n, 0⟩ = some (n * 1000) := by
  simp [timeValue, Decimal.whole, h]

theorem unitsVal_entries_eq (E : Engine) (units : List (String × String))
    (hnames : (units.map Prod.fst).Nodup) (hindex : ∀ u ∈ units, arrayIndex u.1 = none) :
    Object_entries E (unitsVal units) = .ok (units.map fun u => (u.1, JSVal.str u.2)) := by
  simp only [Object_entries, unitsVal]
  rw [ownEntries_eq]
  · simpa [List.map_map, Function.comp_def] using hnames
  · intro m hm
    obtain ⟨u, hu, rfl⟩ := List.mem_map.mp hm
    exact hindex u hu

theorem logsVal_entries_eq (E : Engine) (logs : List (String × List String))
    (hnames : (logs.map Prod.fst).Nodup) (hindex : ∀ l ∈ logs, arrayIndex l.1 = none) :
    Object_entries E (logsVal logs) =
      .ok (logs.map fun l => (l.1, JSVal.arr (l.2.map JSVal.str))) := by
  simp only [Object_entries, logsVal]
  rw [ownEntries_eq]
  · simpa [List.map_map, Function.comp_def] using hnames
  · intro m hm
    obtain ⟨l, hl, rfl⟩ := List.mem_map.mp hm
    exact hindex l hl

/-! # The claims -/

set_option maxRecDepth 20000

/-- C1: in a poll cycle in which at least one of the status, queue and logs fetches fails
(the request is rejected or the body is not JSON), on a page that has the header element,
`fetchStatus` completes normally; the header shows `STATUS: OFFLINE` in red; every other
element of the document is as it was, so no renderer wrote to a container; the requests issued
are exactly the three of `Promise.all`, so `/api/collection` is not requested; and the failure
is logged to the console. -/
theorem fetchStatus_offline (E : Engine) (c : Cycle) (p : Page) (el : Element)
    (hfail : c.status.failed = true ∨ c.queue.failed = true ∨ c.logs.failed = true)
    (hel : p.document "header-status" = some el) :
    ∃ e, fetchStatus E c p = .normal
      { document := p.document.put "header-status"
          { el with childNodes := [.text "STATUS: OFFLINE"], color := "red" },
        requests := p.requests ++ ["/api/status", "/api/queue", "/api/logs"],
        console := p.console ++ [e] } := by
  obtain ⟨e, he⟩ := tryBlock_failed E c p hfail
  refine ⟨e, ?_⟩
  unfold fetchStatus
  rw [he]
  simp only
  rw [catchBlock_eq c e _ el (by simpa [request] using hel)]
  simp [request]

/-- The offline cycle on the sample page: a witness of C1. -/
theorem fetchStatus_offline_witness :
    (offlineCycle.status.failed = true ∨ offlineCycle.queue.failed = true ∨
        offlineCycle.logs.failed = true) ∧
      ∃ e, fetchStatus engine0 offlineCycle samplePage = .normal
        { document := samplePage.document.put "header-status"
            { stale with childNodes := [.text "STATUS: OFFLINE"], color := "red" },
          requests := samplePage.requests ++ ["/api/status", "/api/queue", "/api/logs"],
          console := samplePage.console ++ [e] } :=
  ⟨by decide, fetchStatus_offline engine0 offlineCycle samplePage stale (by decide) (by decide)⟩

/-- C2, as the code has it: in a poll cycle in which the status, queue and logs fetches
deliver well-formed bodies and the `/api/collection` fetch fails, on a page that has the
header and the containers of the four renderers, `fetchStatus` completes normally and the
header shows `STATUS: OFFLINE` in red (the failure is caught by the one `catch` of the cycle);
the renderer calls from `updateHeader(true)` to `updateLogs` all completed normally; and each
of the systemd, queue-counter, current-job and logs containers holds what those calls wrote,
which is what it holds after a cycle whose collection fetch succeeds, whatever its body. -/
theorem fetchStatus_collection_failure (E : Engine) (units : List (String × String))
    (counts : Counts) (job : Option Job) (logs : List (String × List String)) (now : String)
    (coll : FetchOutcome) (p : Page) (header : Element) (hcoll : coll.failed = true)
    (hheader : p.document "header-status" = some header)
    (hpresent : ∀ k ∈ renderedIds, (p.document k).isSome = true) :
    (fetchStatus E (triadCycle units counts job logs coll now) p).error = none ∧
      (fetchStatus E (triadCycle units counts job logs coll now) p).state.document
          "header-status" =
        some { header with childNodes := [.text "STATUS: OFFLINE"], color := "red" } ∧
      (renderTriad E now (statusBody units) (queueBody counts job) (logsBody logs) p).error =
        none ∧
      ∀ k ∈ renderedIds,
        (fetchStatus E (triadCycle units counts job logs coll now) p).state.document k =
            (renderTriad E now (statusBody units) (queueBody counts job) (logsBody logs)
              p).state.document k ∧
          ∀ cv : JSVal,
            (fetchStatus E (triadCycle units counts job logs coll now) p).state.document k =
              (fetchStatus E (triadCycle units counts job logs (.body cv) now)
                p).state.document k := by
  obtain ⟨hr, e, page, hpage, hhead, _, _⟩ :=
    collection_failure_offline E units counts job logs now coll p header hcoll hheader hpresent
  refine ⟨by rw [hpage]; rfl, by rw [hpage]; exact hhead, hr, ?_⟩
  intro k hk
  have hk2 : k ∉ ["header-status", "collection-warning", "collection-list-body",
      "collection-warning-dashboard", "collection-list-body-dashboard"] := by
    simp only [renderedIds, List.mem_cons, List.mem_singleton, List.not_mem_nil,
      or_false] at hk
    rcases hk with rfl | rfl | rfl | rfl | rfl | rfl | rfl | rfl <;> decide
  refine ⟨?_, fun cv => collection_outcome_frame E _ _ p k rfl rfl rfl rfl hk2⟩
  rw [fetchStatus_eq_handle,
    tryBlock_bodies E _ p (statusBody units) (queueBody counts job) (logsBody logs) rfl rfl rfl,
    afterTriad_document E _ _ k hk2, renderTriad_eq, onDocument_document, onDocument_document]
  rfl

/-- The sample cycle with a rejected collection request: a witness of C2 as amended. -/
theorem fetchStatus_collection_failure_witness :
    (fetchStatus engine0
        (triadCycle sampleUnits sampleCounts none sampleLogs .rejected "12:00:00")
        samplePage).error = none ∧
      (fetchStatus engine0
        (triadCycle sampleUnits sampleCounts none sampleLogs .rejected "12:00:00")
        samplePage).state.document "header-status" =
        some { stale with childNodes := [.text "STATUS: OFFLINE"], color := "red" } :=
  have h := fetchStatus_collection_failure engine0 sampleUnits sampleCounts none sampleLogs
    "12:00:00" .rejected samplePage stale (by decide) (by decide) (by decide)
  ⟨h.1, h.2.1⟩

/-- C2 as stated fails: with well-formed status, queue and logs bodies and a rejected
collection request, the cycle ends with the header showing `STATUS: OFFLINE`, which is not the
online indicator. -/
theorem fetchStatus_collection_failure_counterexample :
    (fetchStatus engine0
        (triadCycle sampleUnits sampleCounts none sampleLogs .rejected "12:00:00")
        samplePage).state.document "header-status" =
        some { stale with childNodes := [.text "STATUS: OFFLINE"], color := "red" } ∧
      [Node.text "STATUS: OFFLINE"] ≠ textNodes ("STATUS: ONLINE - " ++ "12:00:00") := by
  decide

/-- C3: for every outcome of the four fetches, bodies of any shape included, and every
page that has the header element, `fetchStatus` completes normally: no exception escapes it.
Whenever the `try` block ended with an exception, of a fetch, of a parse or of a renderer, the
header shows `STATUS: OFFLINE` in red at the end of the cycle. -/
theorem fetchStatus_never_rejects (E : Engine) (c : Cycle) (p : Page)
    (h : (p.document "header-status").isSome = true) :
    (fetchStatus E c p).error = none ∧
      ((tryBlock E c p).error ≠ none →
        ∃ el : Element, (fetchStatus E c p).state.document "header-status" =
          some { el with childNodes := [.text "STATUS: OFFLINE"], color := "red" }) := by
  have hk := tryBlock_keeps E c p "header-status"
  rw [h] at hk
  unfold fetchStatus
  cases ht : tryBlock E c p with
  | normal p1 => exact ⟨rfl, fun hne => absurd rfl hne⟩
  | abrupt e p1 =>
    rw [ht] at hk
    obtain ⟨el, hel⟩ := Option.isSome_iff_exists.mp hk
    simp only [Completion.state] at hel
    simp only [catchBlock_eq c e p1 el hel]
    exact ⟨rfl, fun _ => ⟨el, by simp [Completion.state]⟩⟩

/-- A cycle with bodies of an unexpected shape on the sample page, in which `updateSystemd`
throws a `TypeError`: a witness of C3. -/
theorem fetchStatus_never_rejects_witness :
    ((samplePage.document "header-status").isSome = true ∧
        (tryBlock engine0 oddCycle samplePage).error = some JSError.typeError) ∧
      (fetchStatus engine0 oddCycle samplePage).error = none ∧
      ((tryBlock engine0 oddCycle samplePage).error ≠ none →
        ∃ el : Element, (fetchStatus engine0 oddCycle samplePage).state.document
            "header-status" =
          some { el with childNodes := [.text "STATUS: OFFLINE"], color := "red" }) :=
  ⟨by decide, fetchStatus_never_rejects engine0 oddCycle samplePage (by decide)⟩

/-- C4, as the code has it: for every logs mapping (log names pairwise distinct) none of whose
log names is an array index, and every document that has both log surfaces, `updateLogs`
completes normally and sets the text of `mini-logs` and of `full-logs` to the same string:
the strings `[name] line`, log by log in the order in which the mapping lists the names and
line by line within a log, joined by single newlines, with nothing sorted, dropped or
appended. -/
theorem updateLogs_flattens (E : Engine) (logs : List (String × List String)) (d : Document)
    (mini full : Element) (hnames : (logs.map Prod.fst).Nodup)
    (hindex : ∀ l ∈ logs, arrayIndex l.1 = none) (hmini : d "mini-logs" = some mini)
    (hfull : d "full-logs" = some full) :
    updateLogs E (logsVal logs) d = .normal
      ((d.put "mini-logs" { mini with childNodes := textNodes (flattenLogsSpec logs) }).put
        "full-logs" { full with childNodes := textNodes (flattenLogsSpec logs) }) := by
  rw [updateLogs_of_entries E _ logs (logsVal_entries_eq E logs hnames hindex)]
  have h2 : (d.put "mini-logs" { mini with childNodes := textNodes (flattenLogsSpec logs) })
      "full-logs" = some full := by
    rw [put_other _ _ _ _ (by decide)]; exact hfull
  simp [seq, setTextContent, hmini, h2, Completion.andThen]

/-- The example of the specification: a witness of C4 as amended. -/
theorem updateLogs_flattens_witness :
    ((sampleLogs.map Prod.fst).Nodup ∧ (∀ l ∈ sampleLogs, arrayIndex l.1 = none) ∧
        flattenLogsSpec sampleLogs = "[a.log] x\n[a.log] y\n[b.log] z" ∧
        textNodes "[a.log] x\n[a.log] y\n[b.log] z" =
          [.text "[a.log] x\n[a.log] y\n[b.log] z"]) ∧
      updateLogs engine0 (logsVal sampleLogs) fullDocument =
        .normal ((fullDocument.put "mini-logs"
          { stale with childNodes := textNodes (flattenLogsSpec sampleLogs) }).put "full-logs"
          { stale with childNodes := textNodes (flattenLogsSpec sampleLogs) }) :=
  ⟨by decide,
    updateLogs_flattens engine0 _ fullDocument stale stale (by decide) (by decide) (by decide)
      (by decide)⟩

/-- C4 as stated fails: a body that lists the logs `b.log`, `2`, `1` in this order is
enumerated by `Object.entries` as `1`, `2`, `b.log`, so both surfaces show the lines of `1`
first, where the arrival order puts those of `b.log` first. -/
theorem updateLogs_flattens_counterexample :
    (updateLogs engine0 (logsVal indexedLogs) fullDocument).state "mini-logs" =
        some { stale with childNodes := [.text "[1] z\n[2] y\n[b.log] x"] } ∧
      (updateLogs engine0 (logsVal indexedLogs) fullDocument).state "full-logs" =
        some { stale with childNodes := [.text "[1] z\n[2] y\n[b.log] x"] } ∧
      flattenLogsSpec indexedLogs = "[b.log] x\n[2] y\n[1] z" := by
  decide

/-- C5, as the code has it: for every units mapping (unit names pairwise distinct) none of
whose unit names is an array index, and every document that has the `systemd-stats`
container, `updateSystemd` completes normally and leaves in the container exactly one row per
entry, in the order in which the mapping lists the units; the markup of each row holds the
short name, the status, and one status dot whose class is `active` exactly when the status is
the string `active`, `failed` exactly when it is the string `failed`, and `inactive` for
every other status string. -/
theorem updateSystemd_rows (E : Engine) (units : List (String × String)) (d : Document)
    (el : Element) (hnames : (units.map Prod.fst).Nodup)
    (hindex : ∀ u ∈ units, arrayIndex u.1 = none) (h : d "systemd-stats" = some el) :
    updateSystemd E (unitsVal units) d =
        .normal (d.put "systemd-stats" { el with childNodes := units.map unitRowSpec }) ∧
      (units.map unitRowSpec).length = units.length ∧
      ∀ u : String × String,
        unitRowSpec u = .element "div" "systemd-item"
          ("\n            <span>" ++ shortName u.1 ++ "</span>\n            <div style=\"display:flex; align-items:center;\">\n                <span class=\"dot " ++
            (if u.2 = "active" then "active" else if u.2 = "failed" then "failed"
              else "inactive") ++
            "\"></span>\n                <small>" ++ u.2 ++ "</small>\n            </div>\n        ") := by
  refine ⟨?_, by simp, fun u => rfl⟩
  rw [updateSystemd_of_entries E _ units (unitsVal_entries_eq E units hnames hindex)]
  have hrows : units.map unitNode = units.map unitRowSpec :=
    List.map_congr_left fun u _ => unitNode_eq u
  simp [overwrite, h, complete, hrows]

/-- Three sample units, and the statuses `activating`, `Active` and the empty string: a
witness of C5 as amended. -/
theorem updateSystemd_rows_witness :
    ((sampleUnits.map Prod.fst).Nodup ∧ (∀ u ∈ sampleUnits, arrayIndex u.1 = none) ∧
        dotClassSpec "activating" = "inactive" ∧ dotClassSpec "Active" = "inactive" ∧
        dotClassSpec "" = "inactive") ∧
      updateSystemd engine0 (unitsVal sampleUnits) fullDocument =
        .normal (fullDocument.put "systemd-stats"
          { stale with childNodes := sampleUnits.map unitRowSpec }) :=
  ⟨by decide,
    (updateSystemd_rows engine0 sampleUnits fullDocument stale (by decide) (by decide)
      (by decide)).1⟩

/-- C5 as stated fails: a body that lists the units `b`, `10`, `9` in this order is
enumerated by `Object.entries` as `9`, `10`, `b`, so the rows come in that order and not in
the arrival order. -/
theorem updateSystemd_rows_counterexample :
    (updateSystemd engine0 (unitsVal indexedUnits) fullDocument).state "systemd-stats" =
        some { stale with childNodes :=
          [("9", "dead"), ("10", "failed"), ("b", "active")].map unitRowSpec } ∧
      [("9", "dead"), ("10", "failed"), ("b", "active")].map unitRowSpec ≠
        indexedUnits.map unitRowSpec := by
  decide

/-- C6: on every document that has both collection table bodies and both warning banners,
whatever they held: with status `missing_file`, `updateCollection` leaves in each table body
the single placeholder row, whose text reads `No collection data available.`, and sets both
banners to `display: block`; with status `ok` and no item it leaves both table bodies empty and
sets both banners to `display: none`; with status `ok` and `n` items it leaves in each table
body `n` rows, one per item in item order. -/
theorem updateCollection_shows (E : Engine) (d : Document) (b1 w1 b2 w2 : Element)
    (hb1 : d "collection-list-body" = some b1) (hw1 : d "collection-warning" = some w1)
    (hb2 : d "collection-list-body-dashboard" = some b2)
    (hw2 : d "collection-warning-dashboard" = some w2) :
    updateCollection E (collectionVal .missing_file) d =
        .normal (collectionWritten d "block" [.markup noDataHTML] b1 w1 b2 w2) ∧
      String.mk (markupText false noDataHTML.data) = "No collection data available." ∧
      updateCollection E (collectionVal (.ok [])) d =
        .normal (collectionWritten d "none" [] b1 w1 b2 w2) ∧
      ∀ items : List CollectionItem,
        updateCollection E (collectionVal (.ok items)) d =
            .normal (collectionWritten d "none" (items.map itemNode) b1 w1 b2 w2) ∧
          (items.map itemNode).length = items.length := by
  refine ⟨?_, by decide, ?_, fun items => ⟨?_, by simp⟩⟩
  · exact collection_written E _ _ _ (updateTarget_missing E) d b1 w1 b2 w2 hb1 hw1 hb2 hw2
  · exact collection_written E _ _ _ (updateTarget_ok E []) d b1 w1 b2 w2 hb1 hw1 hb2 hw2
  · exact collection_written E _ _ _ (updateTarget_ok E items) d b1 w1 b2 w2 hb1 hw1 hb2 hw2

/-- The sample document, whose four collection elements hold stale content: a witness of
C6. -/
theorem updateCollection_shows_witness :
    updateCollection engine0 (collectionVal .missing_file) fullDocument =
        .normal (collectionWritten fullDocument "block" [.markup noDataHTML]
          stale stale stale stale) ∧
      String.mk (markupText false noDataHTML.data) = "No collection data available." ∧
      updateCollection engine0 (collectionVal (.ok [])) fullDocument =
        .normal (collectionWritten fullDocument "none" [] stale stale stale stale) ∧
      ∀ items : List CollectionItem,
        updateCollection engine0 (collectionVal (.ok items)) fullDocument =
            .normal (collectionWritten fullDocument "none" (items.map itemNode)
              stale stale stale stale) ∧
          (items.map itemNode).length = items.length :=
  updateCollection_shows engine0 fullDocument stale stale stale stale
    (by decide) (by decide) (by decide) (by decide)

/-- C7, as the code has it: on every document that has the `job-details` container: for an
absent job (`null`) `updateCurrentJob` leaves in the container the idle message and nothing
else; for a present job whose filename and content hold no `<` and no `&` it leaves markup
that shows the labelled filename, the labelled content and, labelled, the engine's rendering
of `new Date(mtime * 1000)`, and in which the idle paragraph does not occur.  For a whole
number of seconds with `mtime * 1000` within 8.64e15 of zero that date has the time value
`mtime * 1000` milliseconds after the epoch, so `mtime = 0` renders the epoch itself. -/
theorem updateCurrentJob_shows (E : Engine) (d : Document) (el : Element)
    (h : d "job-details" = some el) :
    (updateCurrentJob E (jobVal none) d =
          .normal (d.put "job-details" { el with childNodes := [.markup idleHTML] }) ∧
        Element.shownText { el with childNodes := [.markup idleHTML] } =
          "IDLE. SENSORS DETECT NO ACTIVE JOBS.") ∧
      (∀ j : Job, plainText j.filename = true → plainText j.content = true →
        ∃ html : String,
          updateCurrentJob E (jobVal (some j)) d =
            .normal (d.put "job-details" { el with childNodes := [.markup html] }) ∧
          Element.shownText { el with childNodes := [.markup html] } =
            "\n        FILE: " ++ j.filename ++ "\n        CONTENT: " ++ j.content ++
              "\n        MODIFIED: " ++ E.dateToLocaleString (timeValue E j.mtime) ++
              "\n    " ∧
          ¬ occursIn idleHTML html) ∧
      (∀ n : Int, n.natAbs * 1000 ≤ 8640000000000000 →
        timeValue E ⟨n, 0⟩ = some (n * 1000)) ∧
      timeValue E ⟨0, 0⟩ = some 0 := by
  have hidle : updateCurrentJob E (jobVal none) d =
      .normal (d.put "job-details" { el with childNodes := [.markup idleHTML] }) := by
    have ht : truthy (jobVal none) = false := rfl
    simp [updateCurrentJob, ht, setInnerHTML, h, fragment_ne idleHTML (by decide)]
  have hidleText : Element.shownText { el with childNodes := [.markup idleHTML] } =
      "IDLE. SENSORS DETECT NO ACTIVE JOBS." := by
    simp only [Element.shownText, List.flatMap_cons, List.flatMap_nil, List.append_nil,
      Node.shownText]
    decide
  refine ⟨⟨hidle, hidleText⟩, ?_, fun n hn => timeValue_whole E n hn, by
    simpa using timeValue_whole E 0 (by decide)⟩
  intro j hf hc
  have hshown := jobHTML_shown j.filename j.content
    (E.dateToLocaleString (timeValue E j.mtime)) hf hc (E.date_plain _)
  refine ⟨jobHTML j.filename j.content (E.dateToLocaleString (timeValue E j.mtime)), ?_, ?_,
    idle_not_in_jobHTML _ _ _ hf hc (E.date_plain _)⟩
  · have ht : truthy (jobVal (some j)) = true := rfl
    simp [updateCurrentJob, ht, jobMarkup_job, setInnerHTML, h,
      fragment_ne _ (jobHTML_ne_empty _ _ _)]
  · simp only [Element.shownText, List.flatMap_cons, List.flatMap_nil, List.append_nil,
      Node.shownText, hshown.1]

/-- The sample document and a job modified at the epoch: a witness of C7 as amended. -/
theorem updateCurrentJob_shows_witness :
    (plainText epochJob.filename = true ∧ plainText epochJob.content = true ∧
        engine0.dateToLocaleString (timeValue engine0 epochJob.mtime) =
          "1/1/1970, 12:00:00 AM") ∧
      (∃ html : String,
        updateCurrentJob engine0 (jobVal (some epochJob)) fullDocument =
          .normal (fullDocument.put "job-details" { stale with childNodes := [.markup html] }) ∧
        Element.shownText { stale with childNodes := [.markup html] } =
          "\n        FILE: " ++ epochJob.filename ++ "\n        CONTENT: " ++
            epochJob.content ++ "\n        MODIFIED: " ++
            engine0.dateToLocaleString (timeValue engine0 epochJob.mtime) ++ "\n    " ∧
        ¬ occursIn idleHTML html) ∧
      (updateCurrentJob engine0 (jobVal none) fullDocument =
          .normal (fullDocument.put "job-details"
            { stale with childNodes := [.markup idleHTML] }) ∧
        Element.shownText { stale with childNodes := [.markup idleHTML] } =
          "IDLE. SENSORS DETECT NO ACTIVE JOBS.") :=
  ⟨by decide,
    (updateCurrentJob_shows engine0 fullDocument stale (by decide)).2.1 epochJob (by decide)
      (by decide),
    (updateCurrentJob_shows engine0 fullDocument stale (by decide)).1⟩

/-- C7 as stated fails: a content that is markup is not what the container shows, and a
modification time beyond the range of dates is rendered as the invalid date. -/
theorem updateCurrentJob_shows_counterexample :
    ((updateCurrentJob engine0 (jobVal (some markupJob)) fullDocument).state
          "job-details").map Element.shownText =
        some "\n        FILE: a.job\n        CONTENT: x\n        MODIFIED: 1/1/1970, 12:00:00 AM\n    " ∧
      ¬ occursIn markupJob.content
        "\n        FILE: a.job\n        CONTENT: x\n        MODIFIED: 1/1/1970, 12:00:00 AM\n    " ∧
      ((updateCurrentJob engine0 (jobVal (some lateJob)) fullDocument).state
          "job-details").map Element.shownText =
        some "\n        FILE: a.job\n        CONTENT: https://x.bandcamp.com/album/y\n        MODIFIED: Invalid Date\n    " ∧
      timeValue engine0 lateJob.mtime = none := by
  decide

/-- C8: each of the systemd, queue-counter, current-job, logs and collection renderers is
idempotent: for every argument and every starting document, running the renderer again on
the document it left ends the same way and leaves the same document. -/
theorem renderers_idempotent (E : Engine) (v : JSVal) (d : Document) :
    updateSystemd E v (updateSystemd E v d).state = updateSystemd E v d ∧
      updateQueue E v (updateQueue E v d).state = updateQueue E v d ∧
      updateCurrentJob E v (updateCurrentJob E v d).state = updateCurrentJob E v d ∧
      updateLogs E v (updateLogs E v d).state = updateLogs E v d ∧
      updateCollection E v (updateCollection E v d).state = updateCollection E v d :=
  ⟨(updateSystemd_simple E v).idem d, updateQueue_idem E v d,
    (updateCurrentJob_simple E v).idem d, updateLogs_idem E v d, updateCollection_idem E v d⟩

/-- C9: for every well-formed collection response and every document, a target of the
collection widget lacking its table body or its banner included: `updateCollection` completes
normally; a target whose table body is missing is left untouched, its banner included; and the
elements of the other target end in the state they end in on any document that agrees with
this one on that target, such as one in which both targets are present. -/
theorem updateCollection_missing_target (E : Engine) (cv : CollectionView) (d d2 : Document)
    (t other : Target) (ht : t ∈ targets) (hother : other ∈ targets)
    (hagree : d2 other.body = d other.body ∧ d2 other.warning = d other.warning) :
    (updateCollection E (collectionVal cv) d).error = none ∧
      (d t.body = none →
        (updateCollection E (collectionVal cv) d).state t.body = d t.body ∧
        (updateCollection E (collectionVal cv) d).state t.warning = d t.warning) ∧
      (updateCollection E (collectionVal cv) d).state other.body =
        (updateCollection E (collectionVal cv) d2).state other.body ∧
      (updateCollection E (collectionVal cv) d).state other.warning =
        (updateCollection E (collectionVal cv) d2).state other.warning := by
  have h1 := updateCollection_target E cv d t ht
  have h2 := updateCollection_target E cv d other hother
  have h3 := updateCollection_target E cv d2 other hother
  have hdep := (updateTarget_local E (collectionVal cv) other).2.1 d d2 (by
    intro k hk
    simp only [List.mem_cons, List.mem_singleton, List.not_mem_nil, or_false] at hk
    rcases hk with rfl | rfl
    · exact hagree.2.symm
    · exact hagree.1.symm)
  refine ⟨h1.1, ?_, ?_, ?_⟩
  · intro hnone
    have hskip : updateTarget E (collectionVal cv) t d = .normal d := by
      simp [updateTarget, hnone]
    rw [h1.2 t.body (by simp), h1.2 t.warning (by simp), hskip]
    exact ⟨rfl, rfl⟩
  · rw [h2.2 other.body (by simp), h3.2 other.body (by simp)]
    exact hdep.2 other.body (by simp)
  · rw [h2.2 other.warning (by simp), h3.2 other.warning (by simp)]
    exact hdep.2 other.warning (by simp)

/-- A document without the dashboard copy of the widget, against the full sample document:
a witness of C9. -/
theorem updateCollection_missing_target_witness :
    standaloneDocument "collection-list-body-dashboard" = none ∧
      (updateCollection engine0 (collectionVal (.ok sampleItems)) standaloneDocument).error =
        none ∧
      (standaloneDocument "collection-list-body-dashboard" = none →
        (updateCollection engine0 (collectionVal (.ok sampleItems)) standaloneDocument).state
            "collection-list-body-dashboard" =
          standaloneDocument "collection-list-body-dashboard" ∧
        (updateCollection engine0 (collectionVal (.ok sampleItems)) standaloneDocument).state
            "collection-warning-dashboard" =
          standaloneDocument "collection-warning-dashboard") ∧
      (updateCollection engine0 (collectionVal (.ok sampleItems)) standaloneDocument).state
          "collection-list-body" =
        (updateCollection engine0 (collectionVal (.ok sampleItems)) fullDocument).state
          "collection-list-body" ∧
      (updateCollection engine0 (collectionVal (.ok sampleItems)) standaloneDocument).state
          "collection-warning" =
        (updateCollection engine0 (collectionVal (.ok sampleItems)) fullDocument).state
          "collection-warning" :=
  ⟨by decide,
    updateCollection_missing_target engine0 (.ok sampleItems) standaloneDocument fullDocument
      ⟨"collection-list-body-dashboard", "collection-warning-dashboard"⟩
      ⟨"collection-list-body", "collection-warning"⟩ (by decide) (by decide) (by decide)⟩

/-- C10, as the code has it: for every string `X` in which neither `.service` nor `.path`
occurs, the short name `updateSystemd` derives from `bandcamp-sync-X.service` is exactly `X`. -/
theorem shortName_of_unit (X : String) (h1 : ¬ occursIn ".service" X)
    (h2 : ¬ occursIn ".path" X) :
    shortName ("bandcamp-sync-" ++ X ++ ".service") = X := by
  unfold shortName String_replace
  simp only [String.data_append]
  rw [List.append_assoc, replaceFirst_head _ _ _ (by decide)]
  simp only [List.nil_append]
  rw [replaceFirst_suffix _ service_no_border _ h1 (by decide)]
  rw [replaceFirst_absent _ _ _ h2]

/-- The unit `bandcamp-sync-reconcile.service` gives `reconcile`: a witness of C10 as
amended. -/
theorem shortName_of_unit_witness :
    (¬ occursIn ".service" "reconcile" ∧ ¬ occursIn ".path" "reconcile") ∧
      shortName ("bandcamp-sync-" ++ "reconcile" ++ ".service") = "reconcile" :=
  ⟨by decide, shortName_of_unit "reconcile" (by decide) (by decide)⟩

/-- C10 as stated fails: an inner `.service` is the one removed, and `.path` is rewritten
to ` (path)`. -/
theorem shortName_counterexample :
    shortName ("bandcamp-sync-" ++ "a.serviceb" ++ ".service") = "ab.service" ∧
      shortName ("bandcamp-sync-" ++ "a.serviceb" ++ ".service") ≠ "a.serviceb" ∧
      shortName ("bandcamp-sync-" ++ "watch.path" ++ ".service") = "watch (path)" ∧
      shortName ("bandcamp-sync-" ++ "watch.path" ++ ".service") ≠ "watch.path" := by
  decide

end BandcampDashboard
